import Mathlib

/-!
Shallow embedding of the NBA draft & game simulator
(`src/nba_draft_sim.py` and the Streamlit front end `src/app.py`).

Python floats are embedded as exact rationals (`ℚ`); decimal literals are
exact under `OfScientific ℚ`.  The global `random` module is embedded as an
explicitly threaded stream of draws (`RNG`): every call to `random.random()`
reads the next value of the stream, and `random.choices(pop, weights, k=1)`
reads one value `u` and selects the element CPython selects, namely
`pop[bisect(cum_weights, u * total, 0, len(pop) - 1)]` (`choiceWalk` below
walks the cumulative weights and clamps to the last element exactly as the
`hi = n - 1` bound does).  Dictionaries keyed by the f-string
`f"{name}_{stat}"` are embedded as total functions `String → Stat → ℤ`
defaulting to 0: no player name in the database contains an underscore, so
the `rsplit('_', 1)` round trip in `merge_stats` is exact and the pair
`(name, stat)` is a faithful rendering of the concatenated key.
-/

namespace NbaSim

/-- The eight box-score statistics the engine records
(`possession` / `merge_stats` in `src/nba_draft_sim.py`). -/
inductive Stat : Type
  | pts | fga | fgm | fta | ftm | ast | orb | drb
deriving DecidableEq, Repr

/-- The 2K-like rating dictionary produced by `build_player_ratings`
(fixed key set, so a record). -/
structure Ratings : Type where
  finishing : ℚ
  three : ℚ
  mid : ℚ
  ft : ℚ
  playmaking : ℚ
  per_def : ℚ
  int_def : ℚ
  rebounding : ℚ
  athletic : ℚ
  usage : ℚ
  three_tendency : ℚ
deriving DecidableEq, Repr

/-- The `Player` dataclass of `src/nba_draft_sim.py` (the cached `ratings`
field is derived by `build_player_ratings`, exposed below as `Player.ratings`). -/
structure Player : Type where
  name : String
  pos_primary : String
  pos_secondary : List String
  era : String
  ppg : ℚ
  rpg : ℚ
  apg : ℚ
  ts : ℚ
  three_pct : ℚ
  ft_pct : ℚ
  obpm : ℚ
  dbpm : ℚ
  ws48 : ℚ
  three_rate : ℚ
  height_in : ℤ
  weight_lb : ℤ
deriving DecidableEq, Repr, Inhabited

/-- `clamp` of `src/nba_draft_sim.py`. -/
def clamp (x lo hi : ℚ) : ℚ := max lo (min hi x)

/-- `scale_to_99` of `src/nba_draft_sim.py`. -/
def scale_to_99 (val lo hi : ℚ) : ℚ :=
  if hi = lo then 50 else clamp (99 * ((val - lo) / (hi - lo))) 0 99

/-- `build_player_ratings` of `src/nba_draft_sim.py`. -/
def build_player_ratings (p : Player) : Ratings :=
  let finishing := scale_to_99 p.ts 0.50 0.65 * 0.7 + scale_to_99 p.ppg 12 32 * 0.3
  let three := scale_to_99 p.three_pct 0.28 0.44 * 0.8 + scale_to_99 p.three_rate 0.02 0.55 * 0.2
  let mid := (scale_to_99 p.ts 0.52 0.60 + scale_to_99 p.ppg 12 30) / 2
  let ft := scale_to_99 p.ft_pct 0.60 0.92
  let playmaking := scale_to_99 p.apg 2.0 11.5 * 0.7 + scale_to_99 p.obpm 0.0 10.5 * 0.3
  let per_def := scale_to_99 p.dbpm 0.0 4.8 * 0.7 + scale_to_99 p.ws48 0.10 0.26 * 0.3
  let int_def := scale_to_99 p.dbpm 0.0 4.8 * 0.6 + scale_to_99 p.rpg 3.5 13.0 * 0.4
  let reb := scale_to_99 p.rpg 3.5 13.0 * 0.7 + scale_to_99 (p.height_in : ℚ) 72 86 * 0.3
  let athletic := scale_to_99 p.ws48 0.10 0.26 * 0.5 + scale_to_99 p.ts 0.50 0.65 * 0.5
  let usage := clamp (0.25 + (p.ppg - 15) * 0.015) 0.10 0.40
  let three_tendency := clamp p.three_rate 0.00 0.60
  ⟨finishing, three, mid, ft, playmaking, per_def, int_def, reb, athletic, usage, three_tendency⟩

/-- The cached `p.ratings` dictionary (precomputed for every pool player by
the module-level loop `for p in PLAYER_DB: p.ratings = build_player_ratings(p)`;
since `build_player_ratings` is pure, the cache is just this function). -/
def Player.ratings (p : Player) : Ratings := build_player_ratings p

/-- `POSITIONS = ["PG","SG","SF","PF","C"]`: the five lineup slots. -/
inductive Pos : Type
  | PG | SG | SF | PF | C
deriving DecidableEq, Repr

/-- `POSITIONS` as the ordered list of slots. -/
def POSITIONS : List Pos := [.PG, .SG, .SF, .PF, .C]

/-- The `Team` dataclass: a name and a full five-player lineup
(`lineup : Dict[str, Player]` keyed by the five positions). -/
structure Team : Type where
  name : String
  lineup : Pos → Player

/-- `Team.all_players`: `[self.lineup[pos] for pos in POSITIONS]`. -/
def Team.all_players (t : Team) : List Player :=
  [t.lineup .PG, t.lineup .SG, t.lineup .SF, t.lineup .PF, t.lineup .C]

/-- The synergy dictionary returned by `Team.team_synergy` (fixed key set). -/
structure Synergy : Type where
  spacing : ℚ
  rim_pressure : ℚ
  ball_move : ℚ
  int_def : ℚ
  per_def : ℚ
  rebounding : ℚ
  pace : ℚ
deriving DecidableEq, Repr

/-- `Team.team_synergy` of `src/nba_draft_sim.py`. -/
def Team.team_synergy (t : Team) : Synergy :=
  let players := t.all_players
  let n : ℚ := (players.length : ℚ)
  let spacing := (players.map (fun p => p.ratings.three * (0.5 + p.ratings.three_tendency))).sum / n
  let rim_pressure := (players.map (fun p => p.ratings.finishing)).sum / n
  let ball_move := (players.map (fun p => p.ratings.playmaking)).sum / n
  let int_def := (players.map (fun p =>
    if p.pos_primary ∈ (["PF", "C"] : List String) then p.ratings.int_def
    else p.ratings.int_def * 0.8)).sum / n
  let per_def := (players.map (fun p =>
    if p.pos_primary ∈ (["PG", "SG", "SF"] : List String) then p.ratings.per_def
    else p.ratings.per_def * 0.8)).sum / n
  let reb := (players.map (fun p => p.ratings.rebounding)).sum / n
  let pace := 96 + (ball_move - 50) * 0.1 + (spacing - 50) * 0.05
  ⟨spacing, rim_pressure, ball_move, int_def, per_def, reb, clamp pace 90 104⟩

/-- The global `random` state: a stream of `random.random()` draws in `[0,1)`
together with the index of the next draw. -/
structure RNG : Type where
  stream : ℕ → ℚ
  idx : ℕ

/-- The value of the next `random.random()` call. -/
def RNG.val (g : RNG) : ℚ := g.stream g.idx

/-- The state after one `random.random()` call. -/
def RNG.bump (g : RNG) : RNG := ⟨g.stream, g.idx + 1⟩

/-- CPython `random.choices(population, weights, k=1)[0]`: with
`t = random() * sum(weights)`, walk the weights and return the first element
whose cumulative weight exceeds `t`; the `hi = n - 1` bisect bound makes the
last element the result when no prefix does. -/
def choiceWalk {α : Type} (d : α) : List α → List ℚ → ℚ → α
  | [], _, _ => d
  | [x], _, _ => x
  | x :: _ :: _, [], _ => x
  | x :: y :: xs, w :: ws, t => if t < w then x else choiceWalk d (y :: xs) ws (t - w)

/-- `random.choices(xs, weights=ws, k=1)[0]` given the single draw `u`. -/
def pychoice {α : Type} (xs : List α) (ws : List ℚ) (u : ℚ) (d : α) : α :=
  choiceWalk d xs ws (u * ws.sum)

/-- A statistics dictionary (`{player_name_stat: value}` or the box score):
a total map defaulting to 0, mirroring `stats.get(key, 0)`. -/
abbrev Stats := String → Stat → ℤ

/-- The empty dictionary. -/
def Stats.zero : Stats := fun _ _ => 0

/-- `stats[key] = stats.get(key, 0) + v`. -/
def Stats.incr (s : Stats) (name : String) (k : Stat) (v : ℤ) : Stats :=
  fun n' k' => if n' = name ∧ k' = k then s n' k' + v else s n' k'

/-- `tov = clamp(base_tov - (off_syn["ball_move"]-50)*0.001 + (def_syn["per_def"]-50)*0.001, 0.06, 0.18)`
with `base_tov = 0.125`. -/
def tovProb (off defn : Team) : ℚ :=
  clamp (0.125 - (off.team_synergy.ball_move - 50) * 0.001
    + (defn.team_synergy.per_def - 50) * 0.001) 0.06 0.18

/-- The usage weights `[max(0.05, p.ratings["usage"]) for p in players]`. -/
def usageWeights (players : List Player) : List ℚ :=
  players.map (fun p => max 0.05 p.ratings.usage)

/-- The passer weights `[max(1.0, tm.ratings["playmaking"]) for tm in mates]`. -/
def playWeights (mates : List Player) : List ℚ :=
  mates.map (fun tm => max 1 tm.ratings.playmaking)

/-- The rebounding weights `[max(1.0, p.ratings["rebounding"]) for p in ...]`. -/
def rebWeights (players : List Player) : List ℚ :=
  players.map (fun p => max 1 p.ratings.rebounding)

/-- `assist_prob = clamp(0.45 + ..., 0.45, 0.97)`. -/
def assistProb (off : Team) (shooter : Player) : ℚ :=
  clamp (0.45 + (off.team_synergy.ball_move - 50) * 0.012
    + (off.team_synergy.spacing - 50) * 0.006
    + (shooter.ratings.playmaking - 50) * 0.015) 0.45 0.97

/-- `p3 = clamp(0.05 + shooter.ratings["three_tendency"] + ..., 0.03, 0.65)`. -/
def threeAttemptProb (off defn : Team) (shooter : Player) : ℚ :=
  clamp (0.05 + shooter.ratings.three_tendency
    + (off.team_synergy.spacing - 50) * 0.002
    - (defn.team_synergy.per_def - 50) * 0.0015) 0.03 0.65

/-- The make probability: skill/defense blend, the `-0.07` three-point
baseline, and the branch-dependent clamp bounds of line 320. -/
def makeProb (off defn : Team) (shooter : Player) (is_three : Bool) : ℚ :=
  let shot_skill :=
    if is_three then shooter.ratings.three
    else
      let inside_bias :=
        clamp ((off.team_synergy.rim_pressure - defn.team_synergy.int_def) * 0.01 + 0.5) 0.3 0.7
      inside_bias * shooter.ratings.finishing + (1 - inside_bias) * shooter.ratings.mid
  let def_impact :=
    if is_three then defn.team_synergy.per_def
    else 0.7 * defn.team_synergy.int_def + 0.3 * defn.team_synergy.per_def
  let base := (shot_skill - def_impact) * 0.0035 + 0.48
  let base := if is_three then base - 0.07 else base
  clamp base (if is_three then 0.24 else 0.30) (if is_three then 0.52 else 0.73)

/-- `foul_prob = clamp(0.05 + (finishing-50)*0.002 - (int_def-50)*0.001, 0.03, 0.18)`. -/
def foulProb (defn : Team) (shooter : Player) : ℚ :=
  clamp (0.05 + (shooter.ratings.finishing - 50) * 0.002
    - (defn.team_synergy.int_def - 50) * 0.001) 0.03 0.18

/-- `ft_prob = clamp(0.44 + (ft-50)*0.006 - (int_def-50)*0.001, 0.50, 0.95)`
(recomputed identically for each of the two free throws). -/
def ftProb (defn : Team) (shooter : Player) : ℚ :=
  clamp (0.44 + (shooter.ratings.ft - 50) * 0.006
    - (defn.team_synergy.int_def - 50) * 0.001) 0.50 0.95

/-- `clamp(off_reb_edge, 0.16, 0.34)` with
`off_reb_edge = (off_reb - def_reb) * 0.003 + 0.24`. -/
def orebProb (off defn : Team) : ℚ :=
  clamp ((off.team_synergy.rebounding - defn.team_synergy.rebounding) * 0.003 + 0.24) 0.16 0.34

/-- `putback_prob = clamp(0.54 + (finishing-50)*0.004 - (int_def-50)*0.003, 0.40, 0.80)`. -/
def putbackProb (defn : Team) (shooter : Player) : ℚ :=
  clamp (0.54 + (shooter.ratings.finishing - 50) * 0.004
    - (defn.team_synergy.int_def - 50) * 0.003) 0.40 0.80

/-- Lines 359–385 of `src/nba_draft_sim.py`: the rebound chain reached after a
miss that produced no free-throw points.  One draw decides the offensive
rebound; an offensive board credits a weighted boarder and tries a putback by
the original shooter; otherwise a weighted defender gets the defensive board. -/
def reboundPhase (off defn : Team) (shooter : Player) (stats : Stats) (g : RNG) :
    (ℤ × Stats) × RNG :=
  let players := off.all_players
  if g.val < orebProb off defn then
    let boarder := pychoice players (rebWeights players) g.bump.val default
    let stats := stats.incr boarder.name .orb 1
    if g.bump.bump.val < putbackProb defn shooter then
      ((2, ((stats.incr shooter.name .pts 2).incr shooter.name .fga 1).incr
        shooter.name .fgm 1), g.bump.bump.bump)
    else
      ((0, stats.incr shooter.name .fga 1), g.bump.bump.bump)
  else
    let defenders := defn.all_players
    let dboarder := pychoice defenders (rebWeights defenders) g.bump.val default
    ((0, stats.incr dboarder.name .drb 1), g.bump.bump)

/-- Lines 323–385 of `src/nba_draft_sim.py`: the tail of a possession once the
shooter, the assist flag and the shot type are fixed.  The foul draw happens
only on two-point attempts (Python's `and` short-circuit skips the
`random.random()` call when `is_three`); then the make draw, and the made /
free-throw / rebound paths. -/
def afterShot (off defn : Team) (shooter : Player) (assisted is_three : Bool) (g4 : RNG) :
    (ℤ × Stats) × RNG :=
  let players := off.all_players
  let drew_foul : Bool := !is_three && decide (g4.val < foulProb defn shooter)
  let g5 := if is_three then g4 else g4.bump
  if g5.val < makeProb off defn shooter is_three then
    let points : ℤ := if is_three then 3 else 2
    let stats := ((Stats.zero.incr shooter.name .pts points).incr shooter.name .fga 1).incr
      shooter.name .fgm 1
    if assisted then
      let mates := players.filter (fun p => p ≠ shooter)
      let passer := pychoice mates (playWeights mates) g5.bump.val default
      ((points, stats.incr passer.name .ast 1), g5.bump.bump)
    else
      ((points, stats), g5.bump)
  else
    let stats := Stats.zero.incr shooter.name .fga 1
    if drew_foul then
      let m1 : ℤ := if g5.bump.val < ftProb defn shooter then 1 else 0
      let m2 : ℤ := if g5.bump.bump.val < ftProb defn shooter then 1 else 0
      let ft_makes := m1 + m2
      if ft_makes ≠ 0 then
        ((ft_makes, ((stats.incr shooter.name .pts ft_makes).incr shooter.name .fta 2).incr
          shooter.name .ftm ft_makes), g5.bump.bump.bump)
      else
        reboundPhase off defn shooter stats g5.bump.bump.bump
    else
      reboundPhase off defn shooter stats g5.bump

/-- `possession(off, defn)` of `src/nba_draft_sim.py`: the first draw decides
the turnover; otherwise one draw picks the shooter by usage weight, one draw
decides the assist flag, one draw decides three versus two, and `afterShot`
finishes the possession. -/
def possession (off defn : Team) (g : RNG) : (ℤ × Stats) × RNG :=
  if g.val < tovProb off defn then
    ((0, Stats.zero), g.bump)
  else
    let players := off.all_players
    let shooter := pychoice players (usageWeights players) g.bump.val default
    let assisted : Bool := decide (g.bump.bump.val < assistProb off shooter)
    let is_three : Bool := decide (g.bump.bump.bump.val < threeAttemptProb off defn shooter)
    afterShot off defn shooter assisted is_three g.bump.bump.bump.bump

/-- `merge_stats` inside `simulate_game`: fold one possession's updates into
the box score (pointwise addition; absent keys default to 0 on both sides). -/
def mergeStats (box upd : Stats) : Stats := fun n k => box n k + upd n k

/-- Python `int()` on a rational: truncation toward zero. -/
def pyInt (q : ℚ) : ℤ := if 0 ≤ q then ⌊q⌋ else ⌈q⌉

/-- `possessions = int((a_syn["pace"] + b_syn["pace"]) / 2.0)`. -/
def nPoss (a b : Team) : ℤ :=
  pyInt ((a.team_synergy.pace + b.team_synergy.pace) / 2)

/-- The loop state of `simulate_game`: both scores, the box and the RNG. -/
structure GameSt : Type where
  score_a : ℤ
  score_b : ℤ
  box : Stats
  g : RNG

/-- One iteration of the `for i in range(possessions*2)` loop: team A attacks
on even `i`, team B on odd `i`. -/
def gameStep (a b : Team) (st : GameSt) (i : ℕ) : GameSt :=
  if i % 2 = 0 then
    let r := possession a b st.g
    { st with score_a := st.score_a + r.1.1, box := mergeStats st.box r.1.2, g := r.2 }
  else
    let r := possession b a st.g
    { st with score_b := st.score_b + r.1.1, box := mergeStats st.box r.1.2, g := r.2 }

/-- The dictionary `simulate_game` returns (`syn` holds one entry per team
name; the two entries are kept positionally). -/
structure SimResult : Type where
  score : ℤ × ℤ
  box : Stats
  syn_a : Synergy
  syn_b : Synergy
  possessions : ℤ

/-- `simulate_game(team_a, team_b, seed)`.  `seedFn` is the (deterministic)
map from a seed to the generator state `random.seed` installs; when `seed` is
not `None` the incoming global state `g0` is discarded in its favour.  The
final global RNG state is returned alongside the result. -/
def simulate_game (seedFn : ℤ → RNG) (a b : Team) (seed : Option ℤ) (g0 : RNG) :
    SimResult × RNG :=
  let g := match seed with
    | some s => seedFn s
    | none => g0
  let n := nPoss a b
  let st := (List.range (2 * n).toNat).foldl (gameStep a b) ⟨0, 0, Stats.zero, g⟩
  (⟨(st.score_a, st.score_b), st.box, a.team_synergy, b.team_synergy, 2 * n⟩, st.g)

/-- `PLAYER_DB`, rows 1 to 26 (split only to keep elaboration fast). -/
def PLAYER_DB_1 : List Player := [
  ⟨"Michael Jordan", "SG", ["SF"], "90s", 30.1, 6.2, 5.3, 0.569, 0.327, 0.835, 7.9, 1.3, 0.250, 0.12, 78, 198⟩,
  ⟨"LeBron James", "SF", ["PF", "PG"], "10s", 27.1, 7.5, 7.3, 0.594, 0.345, 0.735, 6.8, 1.9, 0.232, 0.28, 81, 250⟩,
  ⟨"Kareem Abdul-Jabbar", "C", ["PF"], "70s", 24.6, 11.2, 3.6, 0.592, 0.000, 0.721, 5.7, 2.2, 0.228, 0.00, 86, 225⟩,
  ⟨"Magic Johnson", "PG", ["SG"], "80s", 19.5, 7.2, 11.2, 0.610, 0.303, 0.848, 6.9, 1.0, 0.225, 0.18, 81, 215⟩,
  ⟨"Larry Bird", "SF", ["PF"], "80s", 24.3, 10.0, 6.3, 0.564, 0.375, 0.886, 5.6, 2.0, 0.203, 0.24, 81, 220⟩,
  ⟨"Shaquille O'Neal", "C", ["PF"], "00s", 23.7, 10.9, 2.5, 0.586, 0.045, 0.527, 4.4, 2.0, 0.208, 0.01, 85, 325⟩,
  ⟨"Tim Duncan", "PF", ["C"], "00s", 19.0, 10.8, 3.0, 0.551, 0.179, 0.696, 2.9, 3.5, 0.209, 0.02, 83, 250⟩,
  ⟨"Kobe Bryant", "SG", ["SF"], "00s", 25.0, 5.2, 4.7, 0.555, 0.329, 0.837, 4.5, 0.7, 0.170, 0.28, 78, 212⟩,
  ⟨"Hakeem Olajuwon", "C", ["PF"], "90s", 21.8, 11.1, 2.5, 0.552, 0.202, 0.712, 3.6, 2.7, 0.178, 0.02, 84, 255⟩,
  ⟨"Stephen Curry", "PG", ["SG"], "10s", 24.7, 4.7, 6.4, 0.628, 0.428, 0.910, 7.7, 0.8, 0.212, 0.55, 74, 190⟩,
  ⟨"Kevin Durant", "SF", ["PF"], "10s", 27.3, 7.1, 4.3, 0.635, 0.388, 0.886, 5.7, 1.8, 0.214, 0.36, 82, 240⟩,
  ⟨"Giannis Antetokounmpo", "PF", ["C", "SF"], "20s", 24.1, 10.3, 4.7, 0.611, 0.286, 0.690, 6.6, 2.2, 0.208, 0.20, 83, 242⟩,
  ⟨"Nikola Jokic", "C", ["PF"], "20s", 20.9, 10.7, 6.9, 0.644, 0.364, 0.829, 10.4, 2.0, 0.260, 0.28, 83, 284⟩,
  ⟨"Wilt Chamberlain", "C", ["PF"], "60s", 30.1, 22.9, 4.4, 0.540, 0.000, 0.511, 5.0, 2.0, 0.248, 0.00, 84, 275⟩,
  ⟨"Bill Russell", "C", ["PF"], "60s", 15.1, 22.5, 4.3, 0.493, 0.000, 0.561, 1.5, 4.8, 0.193, 0.00, 82, 215⟩,
  ⟨"Jerry West", "SG", ["PG"], "60s", 27.0, 5.8, 6.7, 0.580, 0.000, 0.814, 6.1, 1.1, 0.213, 0.02, 75, 175⟩,
  ⟨"Oscar Robertson", "PG", ["SG"], "60s", 25.7, 7.5, 9.5, 0.550, 0.000, 0.838, 6.3, 1.2, 0.207, 0.02, 77, 205⟩,
  ⟨"Dirk Nowitzki", "PF", ["C"], "00s", 20.7, 7.5, 2.4, 0.580, 0.384, 0.879, 3.8, 0.7, 0.178, 0.32, 84, 245⟩,
  ⟨"Kevin Garnett", "PF", ["C"], "00s", 17.8, 10.0, 3.7, 0.547, 0.275, 0.789, 4.6, 3.0, 0.184, 0.10, 83, 240⟩,
  ⟨"Karl Malone", "PF", ["C"], "90s", 25.0, 10.1, 3.6, 0.577, 0.274, 0.742, 4.8, 1.4, 0.205, 0.07, 81, 250⟩,
  ⟨"Charles Barkley", "PF", ["SF"], "90s", 22.1, 11.7, 3.9, 0.612, 0.266, 0.735, 5.5, 0.8, 0.216, 0.08, 78, 252⟩,
  ⟨"Dwyane Wade", "SG", ["PG"], "00s", 22.0, 4.7, 5.4, 0.554, 0.293, 0.765, 4.0, 1.6, 0.159, 0.15, 76, 220⟩,
  ⟨"Allen Iverson", "SG", ["PG"], "00s", 26.7, 3.7, 6.2, 0.518, 0.313, 0.780, 3.8, -0.5, 0.102, 0.32, 72, 165⟩,
  ⟨"Kawhi Leonard", "SF", ["SG"], "20s", 19.9, 6.4, 3.0, 0.600, 0.386, 0.857, 4.8, 2.3, 0.212, 0.30, 79, 225⟩,
  ⟨"Chris Paul", "PG", ["SG"], "10s", 17.5, 4.5, 9.4, 0.589, 0.371, 0.873, 6.9, 2.3, 0.247, 0.30, 72, 175⟩,
  ⟨"James Harden", "SG", ["PG"], "10s", 24.6, 5.6, 7.1, 0.610, 0.366, 0.860, 5.7, 0.7, 0.222, 0.50, 77, 220⟩]

/-- `PLAYER_DB`, rows 27 to 52 (split only to keep elaboration fast). -/
def PLAYER_DB_2 : List Player := [
  ⟨"Russell Westbrook", "PG", ["SG"], "10s", 22.0, 7.3, 8.4, 0.520, 0.308, 0.785, 3.5, 0.5, 0.137, 0.25, 75, 200⟩,
  ⟨"Paul Pierce", "SF", ["SG"], "00s", 19.7, 5.6, 3.5, 0.568, 0.369, 0.806, 3.6, 1.3, 0.178, 0.31, 79, 235⟩,
  ⟨"Ray Allen", "SG", ["SF"], "00s", 18.9, 4.1, 3.4, 0.583, 0.400, 0.892, 3.3, 0.8, 0.157, 0.43, 77, 205⟩,
  ⟨"Reggie Miller", "SG", ["SF"], "90s", 18.2, 3.0, 3.0, 0.614, 0.395, 0.888, 3.1, 0.7, 0.172, 0.40, 78, 185⟩,
  ⟨"Steve Nash", "PG", ["SG"], "00s", 14.3, 3.0, 8.5, 0.607, 0.428, 0.904, 5.4, -0.5, 0.212, 0.32, 75, 178⟩,
  ⟨"Jason Kidd", "PG", ["SG"], "00s", 12.6, 6.3, 8.7, 0.515, 0.349, 0.750, 3.6, 2.6, 0.179, 0.30, 76, 210⟩,
  ⟨"Gary Payton", "PG", ["SG"], "90s", 16.3, 3.9, 6.7, 0.533, 0.317, 0.729, 3.2, 1.7, 0.159, 0.18, 76, 180⟩,
  ⟨"Vince Carter", "SG", ["SF"], "00s", 16.7, 4.3, 3.1, 0.548, 0.374, 0.798, 2.2, 0.6, 0.118, 0.30, 78, 220⟩,
  ⟨"Tracy McGrady", "SG", ["SF"], "00s", 19.6, 5.6, 4.4, 0.538, 0.338, 0.747, 4.3, 0.5, 0.151, 0.28, 80, 225⟩,
  ⟨"Carmelo Anthony", "SF", ["PF"], "10s", 22.5, 6.2, 2.7, 0.545, 0.353, 0.814, 2.3, 0.0, 0.104, 0.29, 80, 238⟩,
  ⟨"Chris Bosh", "PF", ["C"], "10s", 19.2, 8.5, 2.0, 0.567, 0.339, 0.800, 2.2, 1.0, 0.158, 0.22, 83, 235⟩,
  ⟨"Dwight Howard", "C", ["PF"], "10s", 15.7, 11.8, 1.3, 0.609, 0.180, 0.568, 1.4, 2.8, 0.150, 0.02, 83, 265⟩,
  ⟨"Yao Ming", "C", ["PF"], "00s", 19.0, 9.2, 1.6, 0.614, 0.100, 0.833, 3.3, 1.5, 0.200, 0.01, 88, 310⟩,
  ⟨"Manu Ginobili", "SG", ["PG"], "00s", 13.3, 3.5, 3.8, 0.580, 0.370, 0.826, 4.7, 0.9, 0.193, 0.30, 78, 205⟩,
  ⟨"Tony Parker", "PG", ["SG"], "00s", 15.5, 2.7, 5.6, 0.551, 0.327, 0.751, 2.3, -0.3, 0.120, 0.12, 74, 185⟩,
  ⟨"Pau Gasol", "PF", ["C"], "10s", 17.0, 9.2, 3.2, 0.579, 0.298, 0.752, 2.4, 1.5, 0.174, 0.10, 84, 250⟩,
  ⟨"Alonzo Mourning", "C", ["PF"], "00s", 17.1, 8.5, 1.1, 0.565, 0.100, 0.692, 1.4, 3.3, 0.160, 0.01, 82, 240⟩,
  ⟨"Dennis Rodman", "PF", ["SF"], "90s", 7.3, 13.1, 1.8, 0.520, 0.230, 0.584, 1.3, 2.8, 0.161, 0.05, 79, 210⟩,
  ⟨"Dikembe Mutombo", "C", ["PF"], "00s", 9.8, 10.3, 0.9, 0.523, 0.000, 0.685, -0.4, 3.0, 0.147, 0.00, 85, 245⟩,
  ⟨"Andre Iguodala", "SF", ["SG"], "10s", 11.3, 4.9, 4.2, 0.544, 0.329, 0.707, 2.1, 1.9, 0.128, 0.21, 78, 215⟩,
  ⟨"Shane Battier", "SF", ["PF"], "00s", 8.6, 4.2, 1.8, 0.580, 0.385, 0.747, 1.0, 1.7, 0.102, 0.40, 80, 220⟩,
  ⟨"Trevor Ariza", "SF", ["SG"], "10s", 10.4, 4.8, 2.1, 0.530, 0.351, 0.774, 0.5, 1.3, 0.092, 0.45, 80, 215⟩,
  ⟨"PJ Tucker", "PF", ["SF"], "20s", 6.9, 5.5, 1.3, 0.566, 0.363, 0.760, 0.3, 1.4, 0.090, 0.50, 77, 245⟩,
  ⟨"Patrick Beverley", "PG", ["SG"], "10s", 8.5, 3.4, 3.2, 0.525, 0.372, 0.756, 0.9, 1.9, 0.103, 0.38, 73, 180⟩,
  ⟨"Derrick White", "SG", ["PG"], "20s", 12.4, 3.4, 4.1, 0.586, 0.368, 0.869, 1.5, 1.5, 0.121, 0.35, 76, 190⟩,
  ⟨"Marcus Smart", "PG", ["SG"], "20s", 10.6, 3.5, 4.6, 0.525, 0.325, 0.782, 1.8, 1.9, 0.105, 0.40, 76, 220⟩]

/-- `PLAYER_DB`, rows 53 to 78 (split only to keep elaboration fast). -/
def PLAYER_DB_3 : List Player := [
  ⟨"Robert Horry", "PF", ["SF"], "00s", 7.0, 4.8, 2.1, 0.533, 0.341, 0.728, 0.8, 1.0, 0.096, 0.30, 82, 240⟩,
  ⟨"Derek Fisher", "PG", ["SG"], "00s", 8.3, 2.1, 3.0, 0.519, 0.377, 0.813, 0.7, 0.8, 0.084, 0.35, 73, 200⟩,
  ⟨"Boris Diaw", "PF", ["C"], "10s", 8.6, 4.4, 3.5, 0.553, 0.334, 0.727, 1.5, 0.9, 0.111, 0.25, 80, 250⟩,
  ⟨"Thabo Sefolosha", "SG", ["SF"], "10s", 5.9, 3.9, 1.5, 0.552, 0.353, 0.747, 0.2, 1.7, 0.087, 0.30, 79, 215⟩,
  ⟨"Danny Green", "SG", ["SF"], "10s", 8.7, 3.4, 1.5, 0.561, 0.401, 0.797, 0.8, 1.5, 0.110, 0.50, 78, 215⟩,
  ⟨"Tyson Chandler", "C", ["PF"], "10s", 8.2, 9.0, 0.9, 0.638, 0.000, 0.643, 0.3, 2.1, 0.167, 0.00, 85, 240⟩,
  ⟨"Steven Adams", "C", ["PF"], "20s", 9.2, 8.2, 1.6, 0.595, 0.000, 0.528, 0.7, 1.3, 0.138, 0.01, 83, 265⟩,
  ⟨"DeAndre Jordan", "C", ["PF"], "10s", 9.0, 10.3, 1.0, 0.647, 0.000, 0.470, 0.3, 1.8, 0.171, 0.01, 83, 265⟩,
  ⟨"Jae Crowder", "PF", ["SF"], "20s", 10.0, 4.3, 2.0, 0.538, 0.353, 0.775, 0.7, 1.1, 0.095, 0.40, 78, 235⟩,
  ⟨"Joe Harris", "SG", ["SF"], "20s", 10.6, 3.2, 1.6, 0.621, 0.439, 0.796, 1.2, 0.3, 0.123, 0.60, 78, 220⟩,
  ⟨"Kyle Korver", "SG", ["SF"], "10s", 9.7, 2.8, 1.7, 0.604, 0.429, 0.878, 0.8, 0.3, 0.130, 0.60, 79, 212⟩,
  ⟨"Kendrick Perkins", "C", ["PF"], "10s", 5.4, 5.8, 0.9, 0.515, 0.000, 0.589, -1.4, 2.5, 0.067, 0.00, 82, 270⟩,
  ⟨"Nick Collison", "PF", ["C"], "10s", 5.9, 5.2, 1.0, 0.552, 0.100, 0.768, 0.3, 1.1, 0.089, 0.01, 81, 255⟩,
  ⟨"Iman Shumpert", "SG", ["SF"], "10s", 7.3, 3.4, 1.8, 0.497, 0.337, 0.757, -0.5, 1.3, 0.062, 0.35, 77, 215⟩,
  ⟨"Avery Bradley", "SG", ["PG"], "10s", 11.0, 2.9, 1.8, 0.533, 0.366, 0.781, 0.8, 1.2, 0.092, 0.38, 74, 180⟩,
  ⟨"Cory Joseph", "PG", ["SG"], "20s", 7.0, 2.5, 3.0, 0.538, 0.344, 0.780, 0.1, 0.5, 0.080, 0.25, 75, 200⟩,
  ⟨"Royce O'Neale", "SF", ["PF"], "20s", 8.3, 4.6, 2.4, 0.565, 0.381, 0.773, 0.5, 0.8, 0.098, 0.45, 77, 225⟩,
  ⟨"Delon Wright", "PG", ["SG"], "20s", 7.0, 3.2, 3.0, 0.550, 0.358, 0.788, 1.1, 1.3, 0.106, 0.30, 77, 185⟩,
  ⟨"Doug Christie", "SG", ["SF"], "00s", 11.2, 4.1, 3.6, 0.531, 0.355, 0.788, 1.4, 1.9, 0.109, 0.25, 77, 200⟩,
  ⟨"Tayshaun Prince", "SF", ["PF"], "00s", 11.1, 4.3, 2.4, 0.528, 0.370, 0.757, 0.5, 1.5, 0.093, 0.28, 81, 215⟩,
  ⟨"Raja Bell", "SG", ["SF"], "00s", 9.9, 2.9, 1.7, 0.552, 0.406, 0.780, 0.3, 1.1, 0.091, 0.45, 77, 210⟩,
  ⟨"Jared Dudley", "SF", ["PF"], "10s", 7.3, 3.2, 1.5, 0.548, 0.390, 0.740, 0.1, 0.7, 0.084, 0.35, 78, 230⟩,
  ⟨"Quentin Richardson", "SG", ["SF"], "00s", 10.3, 4.7, 1.5, 0.517, 0.357, 0.700, 0.3, 0.4, 0.076, 0.42, 78, 220⟩,
  ⟨"Anthony Tolliver", "PF", ["C"], "10s", 6.4, 3.4, 0.8, 0.551, 0.379, 0.773, 0.2, 0.3, 0.070, 0.42, 80, 240⟩,
  ⟨"Michael Cooper", "SG", ["SF"], "80s", 8.9, 3.2, 4.2, 0.531, 0.345, 0.833, 1.6, 1.5, 0.118, 0.25, 77, 174⟩,
  ⟨"Kurt Rambis", "PF", ["C"], "80s", 5.2, 5.6, 1.1, 0.540, 0.000, 0.700, 0.3, 0.7, 0.075, 0.01, 80, 213⟩]

/-- `PLAYER_DB`, rows 79 to 103 (split only to keep elaboration fast). -/
def PLAYER_DB_4 : List Player := [
  ⟨"Bill Cartwright", "C", ["PF"], "90s", 13.2, 6.3, 1.4, 0.531, 0.000, 0.779, 0.2, 1.0, 0.108, 0.01, 85, 245⟩,
  ⟨"Horace Grant", "PF", ["C"], "90s", 11.2, 8.1, 2.2, 0.558, 0.200, 0.741, 1.5, 1.4, 0.135, 0.10, 81, 215⟩,
  ⟨"Bryon Russell", "SF", ["SG"], "90s", 8.9, 3.7, 1.3, 0.530, 0.379, 0.757, 0.6, 0.8, 0.097, 0.35, 79, 215⟩,
  ⟨"Luc Longley", "C", ["PF"], "90s", 7.2, 4.9, 1.7, 0.525, 0.000, 0.737, 0.3, 0.9, 0.089, 0.01, 86, 265⟩,
  ⟨"Derek Harper", "PG", ["SG"], "90s", 13.3, 2.4, 5.5, 0.528, 0.359, 0.800, 1.1, 1.5, 0.120, 0.30, 73, 185⟩,
  ⟨"Rick Fox", "SF", ["PF"], "00s", 9.6, 3.8, 2.8, 0.537, 0.348, 0.770, 0.9, 1.1, 0.093, 0.33, 79, 230⟩,
  ⟨"Doug Christie", "SG", ["SF"], "00s", 11.2, 4.1, 3.6, 0.531, 0.355, 0.788, 1.4, 1.9, 0.109, 0.25, 77, 200⟩,
  ⟨"Antonio Davis", "PF", ["C"], "90s", 10.0, 7.5, 1.2, 0.513, 0.000, 0.758, 0.6, 1.2, 0.110, 0.01, 81, 245⟩,
  ⟨"Matt Bonner", "PF", ["C"], "00s", 6.9, 3.1, 0.8, 0.582, 0.414, 0.782, -0.3, 0.2, 0.100, 0.60, 82, 235⟩,
  ⟨"James Posey", "SF", ["SG"], "00s", 8.6, 4.7, 1.6, 0.530, 0.369, 0.795, 0.5, 1.0, 0.102, 0.38, 80, 215⟩,
  ⟨"Eduardo Nájera", "PF", ["SF"], "00s", 5.1, 3.7, 0.9, 0.525, 0.200, 0.710, -0.4, 1.0, 0.070, 0.10, 80, 235⟩,
  ⟨"Jared Jeffries", "SF", ["PF"], "00s", 4.8, 4.1, 1.3, 0.493, 0.265, 0.685, -0.5, 1.1, 0.068, 0.20, 81, 230⟩,
  ⟨"Desmond Mason", "SG", ["SF"], "00s", 12.1, 4.5, 1.6, 0.519, 0.303, 0.780, 0.2, 0.6, 0.091, 0.18, 77, 222⟩,
  ⟨"Keith Bogans", "SG", ["SF"], "00s", 6.3, 2.7, 1.3, 0.494, 0.353, 0.754, -0.4, 0.6, 0.073, 0.35, 77, 215⟩,
  ⟨"Rasho Nesterović", "C", ["PF"], "00s", 6.8, 5.1, 0.9, 0.526, 0.000, 0.732, 0.2, 1.4, 0.094, 0.01, 84, 250⟩,
  ⟨"Steve Blake", "PG", ["SG"], "00s", 6.5, 2.1, 4.0, 0.520, 0.388, 0.796, 0.3, 0.6, 0.082, 0.34, 75, 185⟩,
  ⟨"Francisco Garcia", "SG", ["SF"], "00s", 7.9, 2.6, 1.4, 0.531, 0.362, 0.805, 0.1, 0.4, 0.087, 0.38, 78, 195⟩,
  ⟨"Reggie Evans", "PF", ["C"], "00s", 4.1, 7.1, 0.4, 0.510, 0.000, 0.540, -1.6, 2.3, 0.071, 0.00, 80, 245⟩,
  ⟨"Ish Smith", "PG", ["SG"], "20s", 7.3, 2.4, 3.8, 0.502, 0.310, 0.725, 0.2, 0.1, 0.085, 0.25, 72, 175⟩,
  ⟨"Maxi Kleber", "PF", ["C"], "20s", 7.3, 4.2, 1.1, 0.552, 0.366, 0.795, 0.6, 1.2, 0.108, 0.48, 82, 230⟩,
  ⟨"Royce White", "PF", ["SF"], "10s", 3.0, 2.3, 1.2, 0.465, 0.250, 0.667, -1.2, 0.5, 0.060, 0.20, 80, 260⟩,
  ⟨"Cody Zeller", "C", ["PF"], "20s", 8.5, 6.0, 1.3, 0.568, 0.229, 0.758, 0.4, 1.0, 0.105, 0.05, 84, 240⟩,
  ⟨"Cam Payne", "PG", ["SG"], "20s", 8.9, 2.0, 3.7, 0.542, 0.360, 0.780, 0.5, 0.3, 0.096, 0.35, 73, 183⟩,
  ⟨"Darius Bazley", "PF", ["SF"], "20s", 7.3, 4.3, 0.9, 0.495, 0.321, 0.691, -0.8, 1.0, 0.082, 0.30, 80, 220⟩,
  ⟨"Isaiah Joe", "SG", ["PG"], "20s", 6.5, 1.8, 1.2, 0.598, 0.407, 0.860, -0.4, 0.2, 0.097, 0.66, 75, 170⟩]

/-- `PLAYER_DB` of `src/nba_draft_sim.py`: the fixed player pool, all 103
entries in source order (including the repeated "Doug Christie" row),
written as a concatenation of four sublists. -/
def PLAYER_DB : List Player := PLAYER_DB_1 ++ PLAYER_DB_2 ++ PLAYER_DB_3 ++ PLAYER_DB_4

/-!  The Streamlit front end `src/app.py`: the snake-draft state machine.
`st.session_state` holds the pool, the two partial lineups, the
`(draft_round, draft_index)` pointer and the pick history.  The history is a
stack (Python appends to the end and pops from the end; here the most recent
pick is the head). -/

/-- The draft session state of `src/app.py`. -/
structure DraftState : Type where
  pool : List Player
  team_a : Pos → Option Player
  team_b : Pos → Option Player
  draft_round : ℕ
  draft_index : ℕ
  history : List (String × Pos × Player)

/-- The state-init block of `src/app.py` (also `reset_all`): the full
`PLAYER_DB` pool, empty lineups, round 1, index 0, empty history. -/
def initState : DraftState :=
  ⟨PLAYER_DB, fun _ => none, fun _ => none, 1, 0, []⟩

/-- `team_dict(name)`: Team A's lineup when the name is `"Team A"`,
else Team B's. -/
def teamDict (st : DraftState) (name : String) : Pos → Option Player :=
  if name = "Team A" then st.team_a else st.team_b

/-- Writing one slot of `team_dict(name)`. -/
def setSlot (st : DraftState) (name : String) (pos : Pos) (v : Option Player) : DraftState :=
  if name = "Team A" then
    { st with team_a := fun q => if q = pos then v else st.team_a q }
  else
    { st with team_b := fun q => if q = pos then v else st.team_b q }

/-- `current_team_name` of `src/app.py`: odd rounds run A then B, even
rounds B then A. -/
def current_team_name (st : DraftState) : String :=
  if st.draft_round % 2 = 1 then
    if st.draft_index = 0 then "Team A" else "Team B"
  else
    if st.draft_index = 0 then "Team B" else "Team A"

/-- `make_pick` of `src/app.py`: fill the slot, drop every pool entry with
the picked name, push the pick on the history and advance the pointer. -/
def make_pick (team_name : String) (pos : Pos) (player : Player) (st : DraftState) : DraftState :=
  let st1 := setSlot st team_name pos (some player)
  let st2 := { st1 with
    pool := st1.pool.filter (fun p => p.name ≠ player.name)
    history := (team_name, pos, player) :: st1.history }
  if st2.draft_index = 0 then { st2 with draft_index := 1 }
  else { st2 with draft_index := 0, draft_round := st2.draft_round + 1 }

/-- `undo_last` of `src/app.py`: pop the history, step the pointer back
(`round = max(1, round - 1)` when crossing a round boundary), clear the slot
and append the player to the pool. -/
def undo_last (st : DraftState) : DraftState :=
  match st.history with
  | [] => st
  | (team_name, pos, player) :: rest =>
    let st1 := if st.draft_index = 1 then { st with draft_index := 0 }
      else { st with draft_index := 1, draft_round := max 1 (st.draft_round - 1) }
    let st2 := setSlot st1 team_name pos none
    { st2 with pool := st2.pool ++ [player], history := rest }

/-- `2*(round-1) + index`: the position of the pointer in the pick order
(pick 0 = round 1 index 0, pick 1 = round 1 index 1, ...). -/
def slotNum (st : DraftState) : ℕ :=
  2 * (st.draft_round - 1) + st.draft_index

/-- The draft is complete when the UI stops offering picks:
`st.session_state.draft_round <= 5` fails (lines 171 and 216 of `src/app.py`). -/
def draftComplete (st : DraftState) : Prop :=
  5 < st.draft_round

/-- The states the draft UI can reach from the initial state by legal picks:
the UI only picks while `draft_round <= 5`, for the team on the clock, at a
still-unfilled position, a player from the current pool. -/
inductive Reachable : DraftState → Prop
  | init : Reachable initState
  | pick (st : DraftState) (pos : Pos) (player : Player) :
      Reachable st →
      st.draft_round ≤ 5 →
      player ∈ st.pool →
      teamDict st (current_team_name st) pos = none →
      Reachable (make_pick (current_team_name st) pos player st)



/-!  Concrete teams and RNG streams used by the witnesses. -/

/-- A synthetic player with the given name and primary position and all-zero
stats (used only to instantiate theorems at concrete inputs; zero stats make
every rating clamp to 0, so concrete evaluation stays small). -/
def mkPlayer (nm ps : String) : Player :=
  ⟨nm, ps, [], "00s", 0, 0, 0, 0, 0, 0, 0, 0, 0, 0, 72, 200⟩

/-- A concrete five-player team. -/
def teamX : Team :=
  ⟨"Team A", fun pos => match pos with
    | .PG => mkPlayer "A1" "PG"
    | .SG => mkPlayer "A2" "SG"
    | .SF => mkPlayer "A3" "SF"
    | .PF => mkPlayer "A4" "PF"
    | .C => mkPlayer "A5" "C"⟩

/-- A second concrete five-player team, disjoint from `teamX`. -/
def teamY : Team :=
  ⟨"Team B", fun pos => match pos with
    | .PG => mkPlayer "B1" "PG"
    | .SG => mkPlayer "B2" "SG"
    | .SF => mkPlayer "B3" "SF"
    | .PF => mkPlayer "B4" "PF"
    | .C => mkPlayer "B5" "C"⟩

/-- Evaluating the ratings of a synthetic witness player. -/
theorem mkPlayer_ratings (nm ps : String) :
    (mkPlayer nm ps).ratings = ⟨0, 0, 0, 0, 0, 0, 0, 0, 0, 1/10, 0⟩ := by
  simp only [mkPlayer, Player.ratings, build_player_ratings]
  norm_num [scale_to_99, clamp]

/-- The primary position of a synthetic witness player. -/
theorem mkPlayer_pos (nm ps : String) : (mkPlayer nm ps).pos_primary = ps := rfl

/-- Evaluating `teamX`'s synergy. -/
theorem teamX_syn : teamX.team_synergy = ⟨0, 0, 0, 0, 0, 0, 90⟩ := by
  norm_num [Team.team_synergy, Team.all_players, teamX, mkPlayer_ratings, mkPlayer_pos, clamp]

/-- Evaluating `teamY`'s synergy. -/
theorem teamY_syn : teamY.team_synergy = ⟨0, 0, 0, 0, 0, 0, 90⟩ := by
  norm_num [Team.team_synergy, Team.all_players, teamY, mkPlayer_ratings, mkPlayer_pos, clamp]

/-- Evaluating the turnover probability for the witness teams. -/
theorem tov_XY : tovProb teamX teamY = 0.125 := by
  norm_num [tovProb, teamX_syn, teamY_syn, clamp]

/-- The RNG whose every draw is 0. -/
def gZero : RNG := ⟨fun _ => 0, 0⟩

/-- The RNG whose every draw is 1 (every `random() < p` test fails). -/
def gOne : RNG := ⟨fun _ => 1, 0⟩

/-!  Generic facts about the embedded primitives. -/

/-- CPython `random.choices` always returns an element of a nonempty
population, whatever the draw and the weights. -/
theorem choiceWalk_mem {α : Type} (d : α) :
    ∀ (xs : List α) (ws : List ℚ) (t : ℚ), xs ≠ [] → choiceWalk d xs ws t ∈ xs := by
  intro xs
  induction xs with
  | nil => intro ws t h; exact absurd rfl h
  | cons x xs ih =>
    intro ws t _
    cases xs with
    | nil => simp [choiceWalk]
    | cons y ys =>
      cases ws with
      | nil => simp [choiceWalk]
      | cons w ws =>
        simp only [choiceWalk]
        split
        · exact List.mem_cons_self x _
        · exact List.mem_cons_of_mem _ (ih ws (t - w) (by simp))

/-- `pychoice` membership. -/
theorem pychoice_mem {α : Type} (xs : List α) (ws : List ℚ) (u : ℚ) (d : α)
    (h : xs ≠ []) : pychoice xs ws u d ∈ xs :=
  choiceWalk_mem d xs ws (u * ws.sum) h

/-- A team's player list is never empty. -/
theorem all_players_ne_nil (t : Team) : t.all_players ≠ [] := by
  simp [Team.all_players]

/-- Reading an incremented dictionary entry. -/
theorem Stats.incr_apply (s : Stats) (name : String) (k : Stat) (v : ℤ)
    (n' : String) (k' : Stat) :
    Stats.incr s name k v n' k' = if n' = name ∧ k' = k then s n' k' + v else s n' k' := rfl

/-- Reading an entry the increment did not touch. -/
theorem Stats.incr_apply_other (s : Stats) (name : String) (k : Stat) (v : ℤ)
    (n' : String) (k' : Stat) (h : ¬ (n' = name ∧ k' = k)) :
    Stats.incr s name k v n' k' = s n' k' := by
  simp [Stats.incr, h]


/-!  C1: determinism given a seed. -/

/-- C1: `simulate_game` is deterministic given a seed: with the same two
teams and the same non-`None` seed, the result (score pair, box score,
synergy values and possession count alike) does not depend on the prior
global RNG state — `random.seed(seed)` overwrites it, and everything after
that is a function of the teams and the seeded stream. -/
theorem C1_simulate_game_deterministic (seedFn : ℤ → RNG) (a b : Team) (s : ℤ)
    (g1 g2 : RNG) :
    simulate_game seedFn a b (some s) g1 = simulate_game seedFn a b (some s) g2 := rfl

/-!  C4: the turnover check comes first. -/

/-- C4: the first random draw of every possession decides the turnover:
when it is below the turnover probability the possession returns 0 points
with the empty update dictionary (merging which changes no box-score entry
of any player — in particular no turnover statistic exists to be recorded),
and otherwise the possession proceeds to the shooter / assist / shot-type
draws and the rest of the model. -/
theorem C4_turnover_first (off defn : Team) (g : RNG) :
    (g.val < tovProb off defn →
      possession off defn g = ((0, Stats.zero), g.bump) ∧
      ∀ box : Stats, mergeStats box Stats.zero = box) ∧
    (¬ g.val < tovProb off defn →
      possession off defn g =
        afterShot off defn
          (pychoice off.all_players (usageWeights off.all_players) g.bump.val default)
          (decide (g.bump.bump.val < assistProb off
            (pychoice off.all_players (usageWeights off.all_players) g.bump.val default)))
          (decide (g.bump.bump.bump.val < threeAttemptProb off defn
            (pychoice off.all_players (usageWeights off.all_players) g.bump.val default)))
          g.bump.bump.bump.bump) := by
  constructor
  · intro h
    refine ⟨by simp [possession, h], ?_⟩
    intro box
    funext n k
    simp [mergeStats, Stats.zero]
  · intro h
    simp [possession, h]

/-- Witness for C4 at concrete inputs: with an all-zeros stream the first
draw is below the turnover probability and the possession is an empty
turnover; with an all-ones stream it is not a turnover. -/
theorem C4_turnover_first_witness :
    (gZero.val < tovProb teamX teamY ∧
      possession teamX teamY gZero = ((0, Stats.zero), gZero.bump)) ∧
    (¬ gOne.val < tovProb teamX teamY) := by
  have h0 : gZero.val < tovProb teamX teamY := by
    rw [tov_XY]; norm_num [gZero, RNG.val]
  have h1 : ¬ gOne.val < tovProb teamX teamY := by
    rw [tov_XY]; norm_num [gOne, RNG.val]
  exact ⟨⟨h0, ((C4_turnover_first teamX teamY gZero).1 h0).1⟩, h1⟩


/-!  C3: possession count and alternation. -/

/-- `team_synergy` clamps pace into `[90, 104]`. -/
theorem pace_bounds (t : Team) : 90 ≤ t.team_synergy.pace ∧ t.team_synergy.pace ≤ 104 := by
  simp only [Team.team_synergy, clamp]
  exact ⟨le_max_left _ _, max_le (by norm_num) (min_le_left _ _)⟩

/-- The per-team possession count `int((pace_a + pace_b) / 2)` lies in `[90, 104]`. -/
theorem nPoss_bounds (a b : Team) : 90 ≤ nPoss a b ∧ nPoss a b ≤ 104 := by
  have ha := pace_bounds a
  have hb := pace_bounds b
  have h1 : (90 : ℚ) ≤ (a.team_synergy.pace + b.team_synergy.pace) / 2 := by linarith
  have h2 : (a.team_synergy.pace + b.team_synergy.pace) / 2 ≤ 104 := by linarith
  have h0 : (0 : ℚ) ≤ (a.team_synergy.pace + b.team_synergy.pace) / 2 := by linarith
  unfold nPoss pyInt
  rw [if_pos h0]
  refine ⟨Int.le_floor.mpr (by push_cast; linarith), ?_⟩
  have h104 : (⌊(104 : ℚ)⌋ : ℤ) = 104 := by norm_num
  calc ⌊(a.team_synergy.pace + b.team_synergy.pace) / 2⌋ ≤ ⌊(104 : ℚ)⌋ :=
        Int.floor_le_floor h2
    _ = 104 := h104

/-- Among the loop indices `0, ..., 2n - 1` exactly `n` are even and `n` odd. -/
theorem range_filter_parity (n : ℕ) :
    ((List.range (2 * n)).filter (fun i => i % 2 = 0)).length = n ∧
    ((List.range (2 * n)).filter (fun i => i % 2 = 1)).length = n := by
  induction n with
  | zero => simp
  | succ k ih =>
    have h : 2 * (k + 1) = (2 * k) + 1 + 1 := by ring
    have e1 : (2 * k) % 2 = 0 := by omega
    have e2 : (2 * k + 1) % 2 = 1 := by omega
    rw [h, List.range_succ, List.range_succ]
    constructor <;>
      simp [List.filter_append, ih.1, ih.2, e1, e2]

/-- C3: `simulate_game` runs exactly `n` possessions for each side, strictly
alternating with team A on offense first (even loop indices run
`possession(team_a, team_b)`, odd ones `possession(team_b, team_a)`), where
`n = int((pace_a + pace_b) / 2)`; since `team_synergy` clamps pace to
`[90, 104]`, `n ∈ [90, 104]`, the reported `"possessions"` value is `2n` and
lies in `[180, 208]`, and the loop is finite. -/
theorem C3_possession_count (a b : Team) :
    (∀ t : Team, 90 ≤ t.team_synergy.pace ∧ t.team_synergy.pace ≤ 104) ∧
    (∀ (seedFn : ℤ → RNG) (seed : Option ℤ) (g0 : RNG),
      (simulate_game seedFn a b seed g0).1.possessions = 2 * nPoss a b) ∧
    (90 ≤ nPoss a b ∧ nPoss a b ≤ 104) ∧
    (180 ≤ 2 * nPoss a b ∧ 2 * nPoss a b ≤ 208) ∧
    (((List.range (2 * nPoss a b).toNat).filter (fun i => i % 2 = 0)).length =
        (nPoss a b).toNat ∧
      ((List.range (2 * nPoss a b).toNat).filter (fun i => i % 2 = 1)).length =
        (nPoss a b).toNat) ∧
    (∀ (st : GameSt) (i : ℕ),
      (i % 2 = 0 → gameStep a b st i =
        { st with score_a := st.score_a + (possession a b st.g).1.1,
                  box := mergeStats st.box (possession a b st.g).1.2,
                  g := (possession a b st.g).2 }) ∧
      (i % 2 = 1 → gameStep a b st i =
        { st with score_b := st.score_b + (possession b a st.g).1.1,
                  box := mergeStats st.box (possession b a st.g).1.2,
                  g := (possession b a st.g).2 })) := by
  have hb := nPoss_bounds a b
  refine ⟨pace_bounds, ?_, hb, ⟨by omega, by omega⟩, ?_, ?_⟩
  · intro seedFn seed g0
    cases seed <;> rfl
  · have h2 : (2 * nPoss a b).toNat = 2 * (nPoss a b).toNat := by omega
    rw [h2]
    exact range_filter_parity _
  · intro st i
    constructor <;> intro h <;> simp [gameStep, h]

/-- Witness for C3's inner alternation hypotheses at concrete inputs. -/
theorem C3_possession_count_witness :
    ((0 : ℕ) % 2 = 0 ∧ gameStep teamX teamY ⟨0, 0, Stats.zero, gZero⟩ 0 =
      { score_a := (0 : ℤ) + (possession teamX teamY gZero).1.1,
        score_b := 0,
        box := mergeStats Stats.zero (possession teamX teamY gZero).1.2,
        g := (possession teamX teamY gZero).2 }) ∧
    ((1 : ℕ) % 2 = 1 ∧ gameStep teamX teamY ⟨0, 0, Stats.zero, gZero⟩ 1 =
      { score_a := 0,
        score_b := (0 : ℤ) + (possession teamY teamX gZero).1.1,
        box := mergeStats Stats.zero (possession teamY teamX gZero).1.2,
        g := (possession teamY teamX gZero).2 }) := by
  refine ⟨⟨by decide, ?_⟩, ⟨by decide, ?_⟩⟩
  · exact ((C3_possession_count teamX teamY).2.2.2.2.2 ⟨0, 0, Stats.zero, gZero⟩ 0).1 (by decide)
  · exact ((C3_possession_count teamX teamY).2.2.2.2.2 ⟨0, 0, Stats.zero, gZero⟩ 1).2 (by decide)


/-!  C6: snake order of the web draft. -/

/-- `setSlot` only writes a lineup slot: the pointer, pool and history are
untouched. -/
theorem setSlot_frame (st : DraftState) (nm : String) (pos : Pos) (v : Option Player) :
    (setSlot st nm pos v).draft_round = st.draft_round ∧
    (setSlot st nm pos v).draft_index = st.draft_index ∧
    (setSlot st nm pos v).pool = st.pool ∧
    (setSlot st nm pos v).history = st.history := by
  unfold setSlot
  split <;> exact ⟨rfl, rfl, rfl, rfl⟩

/-- How `make_pick` moves the `(draft_round, draft_index)` pointer. -/
theorem make_pick_round_index (t : String) (pos : Pos) (p : Player) (st : DraftState) :
    (make_pick t pos p st).draft_round
      = (if st.draft_index = 0 then st.draft_round else st.draft_round + 1) ∧
    (make_pick t pos p st).draft_index = (if st.draft_index = 0 then 1 else 0) := by
  obtain ⟨h1, h2, h3, h4⟩ := setSlot_frame st t pos (some p)
  simp only [make_pick]
  split_ifs with h <;> simp_all

/-- C6: the web draft follows snake order: in odd rounds Team A is on the
clock at index 0 and Team B at index 1, in even rounds the reverse;
`make_pick` always advances the `(round, index)` pointer to the next slot of
this order (`2*(round-1)+index` grows by exactly one); and the second pick of
round 5 moves the round to 6, completing the draft. -/
theorem C6_snake_order :
    (∀ st : DraftState, st.draft_round % 2 = 1 →
      (st.draft_index = 0 → current_team_name st = "Team A") ∧
      (st.draft_index = 1 → current_team_name st = "Team B")) ∧
    (∀ st : DraftState, st.draft_round % 2 = 0 →
      (st.draft_index = 0 → current_team_name st = "Team B") ∧
      (st.draft_index = 1 → current_team_name st = "Team A")) ∧
    (∀ (st : DraftState) (t : String) (pos : Pos) (p : Player),
      1 ≤ st.draft_round → st.draft_index ≤ 1 →
      slotNum (make_pick t pos p st) = slotNum st + 1) ∧
    (∀ (st : DraftState) (t : String) (pos : Pos) (p : Player),
      st.draft_round = 5 → st.draft_index = 1 →
      (make_pick t pos p st).draft_round = 6 ∧ draftComplete (make_pick t pos p st)) := by
  refine ⟨?_, ?_, ?_, ?_⟩
  · intro st h
    constructor <;> intro h2 <;> simp [current_team_name, h, h2]
  · intro st h
    constructor <;> intro h2 <;> simp [current_team_name, h, h2]
  · intro st t pos p h1 h2
    obtain ⟨hr, hi⟩ := make_pick_round_index t pos p st
    unfold slotNum
    rw [hr, hi]
    by_cases h : st.draft_index = 0
    · simp [h]
    · have : st.draft_index = 1 := by omega
      simp [this]
      omega
  · intro st t pos p h5 h1
    obtain ⟨hr, hi⟩ := make_pick_round_index t pos p st
    rw [h1] at hr
    simp at hr
    rw [h5] at hr
    exact ⟨hr, by simp [draftComplete, hr]⟩

/-- Witness for C6 at concrete states: the initial state (round 1, index 0)
has Team A on the clock and a pick advances the slot counter from 0 to 1;
from a round-5 index-1 state a pick completes the draft. -/
theorem C6_snake_order_witness :
    (initState.draft_round % 2 = 1 ∧ initState.draft_index = 0 ∧
      current_team_name initState = "Team A") ∧
    (1 ≤ initState.draft_round ∧ initState.draft_index ≤ 1 ∧
      slotNum (make_pick "Team A" .PG (mkPlayer "A1" "PG") initState) =
        slotNum initState + 1) ∧
    ((⟨[], fun _ => none, fun _ => none, 5, 1, []⟩ : DraftState).draft_round = 5 ∧
      (⟨[], fun _ => none, fun _ => none, 5, 1, []⟩ : DraftState).draft_index = 1 ∧
      draftComplete (make_pick "Team B" .C (mkPlayer "B5" "C")
        (⟨[], fun _ => none, fun _ => none, 5, 1, []⟩ : DraftState))) := by
  refine ⟨⟨by decide, by decide, ?_⟩, ⟨by decide, by decide, ?_⟩, ⟨by decide, by decide, ?_⟩⟩
  · exact (C6_snake_order.1 initState (by decide)).1 (by decide)
  · exact C6_snake_order.2.2.1 initState "Team A" .PG (mkPlayer "A1" "PG")
      (by decide) (by decide)
  · exact (C6_snake_order.2.2.2 _ "Team B" .C (mkPlayer "B5" "C") rfl rfl).2


/-!  C7 / C8: the draft state machine's conservation invariant. -/

set_option maxRecDepth 100000 in
set_option maxHeartbeats 4000000 in
/-- In `PLAYER_DB` the name determines the row: the only repeated name is
"Doug Christie", whose two rows are identical. -/
theorem PLAYER_DB_name_faithful :
    ∀ p ∈ PLAYER_DB, ∀ q ∈ PLAYER_DB, p.name = q.name → p = q :=
  of_decide_eq_true (by with_unfolding_all rfl)

/-- `current_team_name` only ever answers the two team names. -/
theorem current_team_name_cases (st : DraftState) :
    current_team_name st = "Team A" ∨ current_team_name st = "Team B" := by
  unfold current_team_name
  split_ifs <;> simp

/-- `make_pick` filters every pool entry carrying the picked name. -/
theorem make_pick_pool (t : String) (pos : Pos) (p : Player) (st : DraftState) :
    (make_pick t pos p st).pool = st.pool.filter (fun q => q.name ≠ p.name) := by
  obtain ⟨-, -, hp, -⟩ := setSlot_frame st t pos (some p)
  simp only [make_pick]
  split_ifs <;> simp [hp]

/-- `make_pick` pushes the pick onto the history. -/
theorem make_pick_history (t : String) (pos : Pos) (p : Player) (st : DraftState) :
    (make_pick t pos p st).history = (t, pos, p) :: st.history := by
  obtain ⟨-, -, -, hh⟩ := setSlot_frame st t pos (some p)
  simp only [make_pick]
  split_ifs <;> simp [hh]

/-- How `make_pick` writes Team A's lineup. -/
theorem make_pick_team_a (t : String) (pos : Pos) (p : Player) (st : DraftState) :
    (make_pick t pos p st).team_a =
      if t = "Team A" then (fun q => if q = pos then some p else st.team_a q)
      else st.team_a := by
  simp only [make_pick, setSlot]
  split_ifs <;> rfl

/-- How `make_pick` writes Team B's lineup. -/
theorem make_pick_team_b (t : String) (pos : Pos) (p : Player) (st : DraftState) :
    (make_pick t pos p st).team_b =
      if t = "Team A" then st.team_b
      else (fun q => if q = pos then some p else st.team_b q) := by
  simp only [make_pick, setSlot]
  split_ifs <;> rfl

/-- The conservation invariant of the draft: the pool is drawn from
`PLAYER_DB`; no filled slot's name survives in the pool; the two lineups
share no name; pool and slots partition `PLAYER_DB`; and the pointer is well
formed. -/
def Inv (st : DraftState) : Prop :=
  (∀ p ∈ st.pool, p ∈ PLAYER_DB) ∧
  (∀ pos q, (st.team_a pos = some q ∨ st.team_b pos = some q) →
    q.name ∉ st.pool.map Player.name) ∧
  (∀ posa posb qa qb, st.team_a posa = some qa → st.team_b posb = some qb →
    qa.name ≠ qb.name) ∧
  (∀ p, p ∈ PLAYER_DB ↔
    (p ∈ st.pool ∨ (∃ pos, st.team_a pos = some p) ∨ (∃ pos, st.team_b pos = some p))) ∧
  1 ≤ st.draft_round ∧ st.draft_index ≤ 1

/-- The initial draft state satisfies the invariant. -/
theorem Inv_init : Inv initState := by
  refine ⟨?_, ?_, ?_, ?_, ?_, ?_⟩ <;> simp [initState]


/-- Names appearing in the filtered pool already appeared in the pool. -/
theorem mem_filtered_names {st : DraftState} {p : Player} {n : String}
    (h : n ∈ (st.pool.filter (fun q => q.name ≠ p.name)).map Player.name) :
    n ∈ st.pool.map Player.name := by
  obtain ⟨q, hq, rfl⟩ := List.mem_map.mp h
  exact List.mem_map.mpr ⟨q, List.mem_of_mem_filter hq, rfl⟩

/-- The picked name never survives the pool filter. -/
theorem picked_name_not_in_filtered (st : DraftState) (p : Player) :
    p.name ∉ (st.pool.filter (fun q => q.name ≠ p.name)).map Player.name := by
  intro h
  obtain ⟨q, hq, hqn⟩ := List.mem_map.mp h
  have := List.of_mem_filter hq
  simp at this
  exact this hqn

/-- A legal pick preserves the conservation invariant. -/
theorem Inv_pick (st : DraftState) (t : String) (pos : Pos) (player : Player)
    (hinv : Inv st) (hp : player ∈ st.pool) (hs : teamDict st t pos = none)
    (ht : t = "Team A" ∨ t = "Team B") :
    Inv (make_pick t pos player st) := by
  obtain ⟨hsub, hnot, hcross, hpart, hr, hi⟩ := hinv
  have hpool := make_pick_pool t pos player st
  have hta := make_pick_team_a t pos player st
  have htb := make_pick_team_b t pos player st
  have hri := make_pick_round_index t pos player st
  have hpn : player.name ∈ st.pool.map Player.name := List.mem_map.mpr ⟨player, hp, rfl⟩
  rcases ht with ht | ht
  all_goals subst ht
  -- Team A case
  · have hsA : st.team_a pos = none := by simpa [teamDict] using hs
    have hta2 : (make_pick "Team A" pos player st).team_a
        = fun q => if q = pos then some player else st.team_a q := by
      rw [hta]; simp
    have htb2 : (make_pick "Team A" pos player st).team_b = st.team_b := by
      rw [htb]; simp
    refine ⟨?_, ?_, ?_, ?_, ?_, ?_⟩
    · intro q hq
      rw [hpool] at hq
      exact hsub q (List.mem_of_mem_filter hq)
    · intro pos' q hq
      rw [hpool]
      simp only [hta2, htb2] at hq
      rcases hq with hq | hq
      · by_cases hpp : pos' = pos
        · rw [if_pos hpp] at hq
          obtain rfl : player = q := by injection hq
          exact picked_name_not_in_filtered st player
        · rw [if_neg hpp] at hq
          exact fun hmem => hnot pos' q (Or.inl hq) (mem_filtered_names hmem)
      · exact fun hmem => hnot pos' q (Or.inr hq) (mem_filtered_names hmem)
    · intro posa posb qa qb hqa hqb
      simp only [hta2] at hqa
      simp only [htb2] at hqb
      by_cases hpp : posa = pos
      · rw [if_pos hpp] at hqa
        obtain rfl : player = qa := by injection hqa
        intro hnn
        exact hnot posb qb (Or.inr hqb) (hnn ▸ hpn)
      · rw [if_neg hpp] at hqa
        exact hcross posa posb qa qb hqa hqb
    · intro q
      simp only [hpool, hta2, htb2]
      constructor
      · intro hq
        rcases (hpart q).mp hq with hq' | hq' | hq'
        · by_cases hqn : q.name = player.name
          · have : q = player :=
              PLAYER_DB_name_faithful q (hsub q hq') player (hsub player hp) hqn
            subst this
            exact Or.inr (Or.inl ⟨pos, by simp⟩)
          · exact Or.inl (List.mem_filter.mpr ⟨hq', by simpa using hqn⟩)
        · obtain ⟨pos', hpos'⟩ := hq'
          have hne : pos' ≠ pos := by
            intro hpe
            rw [hpe, hsA] at hpos'
            exact Option.noConfusion hpos'
          exact Or.inr (Or.inl ⟨pos', by simp [hne, hpos']⟩)
        · exact Or.inr (Or.inr hq')
      · intro hq
        rcases hq with hq | ⟨pos', hq⟩ | hq
        · exact (hpart q).mpr (Or.inl (List.mem_of_mem_filter hq))
        · by_cases hpp : pos' = pos
          · rw [if_pos hpp] at hq
            obtain rfl : player = q := by injection hq
            exact hsub player hp
          · rw [if_neg hpp] at hq
            exact (hpart q).mpr (Or.inr (Or.inl ⟨pos', hq⟩))
        · exact (hpart q).mpr (Or.inr (Or.inr hq))
    · rw [hri.1]
      split <;> omega
    · rw [hri.2]
      split <;> omega
  -- Team B case
  · have hsB : st.team_b pos = none := by simpa [teamDict] using hs
    have hBA : ("Team B" : String) ≠ "Team A" := by decide
    have hta2 : (make_pick "Team B" pos player st).team_a = st.team_a := by
      rw [hta]; simp [hBA]
    have htb2 : (make_pick "Team B" pos player st).team_b
        = fun q => if q = pos then some player else st.team_b q := by
      rw [htb]; simp [hBA]
    refine ⟨?_, ?_, ?_, ?_, ?_, ?_⟩
    · intro q hq
      rw [hpool] at hq
      exact hsub q (List.mem_of_mem_filter hq)
    · intro pos' q hq
      rw [hpool]
      simp only [hta2, htb2] at hq
      rcases hq with hq | hq
      · exact fun hmem => hnot pos' q (Or.inl hq) (mem_filtered_names hmem)
      · by_cases hpp : pos' = pos
        · rw [if_pos hpp] at hq
          obtain rfl : player = q := by injection hq
          exact picked_name_not_in_filtered st player
        · rw [if_neg hpp] at hq
          exact fun hmem => hnot pos' q (Or.inr hq) (mem_filtered_names hmem)
    · intro posa posb qa qb hqa hqb
      simp only [hta2] at hqa
      simp only [htb2] at hqb
      by_cases hpp : posb = pos
      · rw [if_pos hpp] at hqb
        obtain rfl : player = qb := by injection hqb
        intro hnn
        exact hnot posa qa (Or.inl hqa) (hnn ▸ hpn)
      · rw [if_neg hpp] at hqb
        exact hcross posa posb qa qb hqa hqb
    · intro q
      simp only [hpool, hta2, htb2]
      constructor
      · intro hq
        rcases (hpart q).mp hq with hq' | hq' | hq'
        · by_cases hqn : q.name = player.name
          · have : q = player :=
              PLAYER_DB_name_faithful q (hsub q hq') player (hsub player hp) hqn
            subst this
            exact Or.inr (Or.inr ⟨pos, by simp⟩)
          · exact Or.inl (List.mem_filter.mpr ⟨hq', by simpa using hqn⟩)
        · exact Or.inr (Or.inl hq')
        · obtain ⟨pos', hpos'⟩ := hq'
          have hne : pos' ≠ pos := by
            intro hpe
            rw [hpe, hsB] at hpos'
            exact Option.noConfusion hpos'
          exact Or.inr (Or.inr ⟨pos', by simp [hne, hpos']⟩)
      · intro hq
        rcases hq with hq | hq | ⟨pos', hq⟩
        · exact (hpart q).mpr (Or.inl (List.mem_of_mem_filter hq))
        · exact (hpart q).mpr (Or.inr (Or.inl hq))
        · by_cases hpp : pos' = pos
          · rw [if_pos hpp] at hq
            obtain rfl : player = q := by injection hq
            exact hsub player hp
          · rw [if_neg hpp] at hq
            exact (hpart q).mpr (Or.inr (Or.inr ⟨pos', hq⟩))
    · rw [hri.1]
      split <;> omega
    · rw [hri.2]
      split <;> omega

/-- Every reachable draft state satisfies the invariant. -/
theorem Inv_reachable (st : DraftState) (h : Reachable st) : Inv st := by
  induction h with
  | init => exact Inv_init
  | pick st pos player _ _ hp hs ih =>
    exact Inv_pick st (current_team_name st) pos player ih hp hs
      (current_team_name_cases st)


/-- C7: drafting conserves the fixed player pool: in every reachable draft
state each drafted player is absent from the remaining pool, no player
occupies slots in both lineups, and the remaining pool together with the
drafted players equals (as a set of players) the original `PLAYER_DB` pool. -/
theorem C7_pool_conservation (st : DraftState) (h : Reachable st) :
    (∀ pos p, (st.team_a pos = some p ∨ st.team_b pos = some p) → p ∉ st.pool) ∧
    (∀ posa posb pa pb, st.team_a posa = some pa → st.team_b posb = some pb →
      pa ≠ pb) ∧
    (∀ p, p ∈ PLAYER_DB ↔
      (p ∈ st.pool ∨ (∃ pos, st.team_a pos = some p) ∨
        (∃ pos, st.team_b pos = some p))) := by
  obtain ⟨hsub, hnot, hcross, hpart, -, -⟩ := Inv_reachable st h
  refine ⟨?_, ?_, hpart⟩
  · intro pos p hp hmem
    exact hnot pos p hp (List.mem_map.mpr ⟨p, hmem, rfl⟩)
  · intro posa posb pa pb ha hb heq
    exact hcross posa posb pa pb ha hb (by rw [heq])

/-- Witness for C7: the conservation property instantiated at the (reachable)
initial state. -/
theorem C7_pool_conservation_witness :
    (∀ pos p,
      (initState.team_a pos = some p ∨ initState.team_b pos = some p) →
        p ∉ initState.pool) ∧
    (∀ posa posb pa pb, initState.team_a posa = some pa →
      initState.team_b posb = some pb → pa ≠ pb) ∧
    (∀ p, p ∈ PLAYER_DB ↔
      (p ∈ initState.pool ∨ (∃ pos, initState.team_a pos = some p) ∨
        (∃ pos, initState.team_b pos = some p))) :=
  C7_pool_conservation initState Reachable.init

/-- The fields of `undo_last` on a state whose history head is known. -/
theorem undo_fields (m : DraftState) (t : String) (pos : Pos) (p : Player)
    (rest : List (String × Pos × Player)) (hh : m.history = (t, pos, p) :: rest) :
    (undo_last m).draft_round
      = (if m.draft_index = 1 then m.draft_round else max 1 (m.draft_round - 1)) ∧
    (undo_last m).draft_index = (if m.draft_index = 1 then 0 else 1) ∧
    (undo_last m).history = rest ∧
    (undo_last m).pool = m.pool ++ [p] ∧
    (undo_last m).team_a =
      (if t = "Team A" then (fun q => if q = pos then none else m.team_a q)
        else m.team_a) ∧
    (undo_last m).team_b =
      (if t = "Team A" then m.team_b
        else (fun q => if q = pos then none else m.team_b q)) := by
  simp only [undo_last, hh, setSlot]
  refine ⟨?_, ?_, ?_, ?_, ?_, ?_⟩ <;> first
    | trivial
    | (split_ifs <;> first | rfl | trivial)


/-- C8: undo inverts a pick.  From any reachable state, making a legal pick
(player from the pool, at a still-empty slot of the team on the clock) and
then calling `undo_last` restores the previous draft state: the same round
and pick index, both lineups (the chosen slot cleared back to empty), the
history, and a pool containing exactly the same players as before the pick. -/
theorem C8_undo_inverts (st : DraftState) (h : Reachable st) (pos : Pos)
    (player : Player) (hp : player ∈ st.pool)
    (hs : teamDict st (current_team_name st) pos = none) :
    (undo_last (make_pick (current_team_name st) pos player st)).draft_round
      = st.draft_round ∧
    (undo_last (make_pick (current_team_name st) pos player st)).draft_index
      = st.draft_index ∧
    (undo_last (make_pick (current_team_name st) pos player st)).team_a
      = st.team_a ∧
    (undo_last (make_pick (current_team_name st) pos player st)).team_b
      = st.team_b ∧
    (undo_last (make_pick (current_team_name st) pos player st)).history
      = st.history ∧
    (∀ q, q ∈ (undo_last (make_pick (current_team_name st) pos player st)).pool
      ↔ q ∈ st.pool) := by
  obtain ⟨hsub, -, -, -, hr, hi⟩ := Inv_reachable st h
  have hcases := current_team_name_cases st
  have hh := make_pick_history (current_team_name st) pos player st
  obtain ⟨hur, hui, huh, hup, huta, hutb⟩ :=
    undo_fields (make_pick (current_team_name st) pos player st)
      (current_team_name st) pos player st.history hh
  have hri := make_pick_round_index (current_team_name st) pos player st
  have hta := make_pick_team_a (current_team_name st) pos player st
  have htb := make_pick_team_b (current_team_name st) pos player st
  have hpl := make_pick_pool (current_team_name st) pos player st
  refine ⟨?_, ?_, ?_, ?_, huh, ?_⟩
  · rw [hur, hri.1, hri.2]
    by_cases h0 : st.draft_index = 0
    · simp [h0]
    · simp [h0]
      exact hr
  · rw [hui, hri.2]
    by_cases h0 : st.draft_index = 0
    · simp [h0]
    · simp [h0]
      omega
  · rcases hcases with hA | hB
    · rw [huta, hA, if_pos rfl]
      rw [hA, if_pos rfl] at hta
      have hsA : st.team_a pos = none := by
        rw [hA] at hs
        simpa [teamDict] using hs
      funext q
      by_cases hq : q = pos
      · subst hq
        simp [hsA]
      · simp [hq, hta]
    · have hBA : current_team_name st ≠ "Team A" := by rw [hB]; decide
      rw [huta, if_neg hBA]
      rw [if_neg hBA] at hta
      exact hta
  · rcases hcases with hA | hB
    · rw [hutb, hA, if_pos rfl]
      rw [hA, if_pos rfl] at htb
      exact htb
    · have hBA : current_team_name st ≠ "Team A" := by rw [hB]; decide
      rw [hutb, if_neg hBA]
      rw [if_neg hBA] at htb
      have hsB : st.team_b pos = none := by
        rw [hB] at hs
        simpa [teamDict] using hs
      funext q
      by_cases hq : q = pos
      · subst hq
        simp [hsB]
      · simp [hq, htb]
  · intro q
    rw [hup, hpl]
    constructor
    · intro hq
      rcases List.mem_append.mp hq with hq | hq
      · exact List.mem_of_mem_filter hq
      · obtain rfl : q = player := by simpa using hq
        exact hp
    · intro hq
      by_cases hqn : q.name = player.name
      · have : q = player :=
          PLAYER_DB_name_faithful q (hsub q hq) player (hsub player hp) hqn
        subst this
        exact List.mem_append_right _ (by simp)
      · exact List.mem_append_left _ (List.mem_filter.mpr ⟨hq, by simpa using hqn⟩)

/-- The first entry of the player pool (Michael Jordan's row). -/
def firstPlayer : Player := PLAYER_DB_1.headD default

/-- The first pool entry belongs to the pool. -/
theorem firstPlayer_mem : firstPlayer ∈ PLAYER_DB := by
  have h1 : firstPlayer ∈ PLAYER_DB_1 := by
    unfold firstPlayer PLAYER_DB_1
    simp
  unfold PLAYER_DB
  exact List.mem_append_left _ (List.mem_append_left _ (List.mem_append_left _ h1))

/-- Witness for C8: picking the first pool entry at PG from the initial state
and undoing restores the initial round, and the pool as a set. -/
theorem C8_undo_inverts_witness :
    firstPlayer ∈ initState.pool ∧
    teamDict initState (current_team_name initState) .PG = none ∧
    (undo_last (make_pick (current_team_name initState) .PG firstPlayer
      initState)).draft_round = initState.draft_round ∧
    (∀ q, q ∈ (undo_last (make_pick (current_team_name initState) .PG firstPlayer
      initState)).pool ↔ q ∈ initState.pool) := by
  have hp : firstPlayer ∈ initState.pool := firstPlayer_mem
  have hs : teamDict initState (current_team_name initState) Pos.PG = none := rfl
  have h := C8_undo_inverts initState Reachable.init Pos.PG firstPlayer hp hs
  exact ⟨hp, hs, h.1, h.2.2.2.2.2⟩


/-!  C5: free throws arise only from missed two-point attempts. -/

/-- The rebound chain never touches the free-throw-attempts column. -/
theorem reboundPhase_fta (off defn : Team) (sh : Player) (stats : Stats) (g : RNG)
    (name : String) :
    (reboundPhase off defn sh stats g).1.2 name .fta = stats name .fta := by
  unfold reboundPhase
  split_ifs <;> simp [Stats.incr]

/-- The rebound chain never touches the free-throws-made column. -/
theorem reboundPhase_ftm (off defn : Team) (sh : Player) (stats : Stats) (g : RNG)
    (name : String) :
    (reboundPhase off defn sh stats g).1.2 name .ftm = stats name .ftm := by
  unfold reboundPhase
  split_ifs <;> simp [Stats.incr]

/-- C5: free throws arise only from missed two-point attempts.  On a
three-point attempt no player's free-throw statistics ever move (the foul
draw is skipped); a made two-point shot yields no free throws; a drawn foul
after a missed two grants exactly the two-attempt trip (recording
`fta = 2` and returning the made count when at least one drops); and when
both free throws miss, the possession continues into the rebound chain
instead of ending. -/
theorem C5_free_throws (off defn : Team) (sh : Player) (assisted : Bool) (g : RNG) :
    (∀ name, (afterShot off defn sh assisted true g).1.2 name .fta = 0 ∧
      (afterShot off defn sh assisted true g).1.2 name .ftm = 0) ∧
    (g.bump.val < makeProb off defn sh false →
      ∀ name, (afterShot off defn sh assisted false g).1.2 name .fta = 0 ∧
        (afterShot off defn sh assisted false g).1.2 name .ftm = 0) ∧
    (g.val < foulProb defn sh → ¬ g.bump.val < makeProb off defn sh false →
      ((if g.bump.bump.val < ftProb defn sh then (1 : ℤ) else 0)
        + (if g.bump.bump.bump.val < ftProb defn sh then (1 : ℤ) else 0) ≠ 0) →
      (afterShot off defn sh assisted false g).1.2 sh.name .fta = 2 ∧
      (afterShot off defn sh assisted false g).1.2 sh.name .ftm =
        (if g.bump.bump.val < ftProb defn sh then (1 : ℤ) else 0)
          + (if g.bump.bump.bump.val < ftProb defn sh then (1 : ℤ) else 0) ∧
      (afterShot off defn sh assisted false g).1.1 =
        (if g.bump.bump.val < ftProb defn sh then (1 : ℤ) else 0)
          + (if g.bump.bump.bump.val < ftProb defn sh then (1 : ℤ) else 0)) ∧
    (g.val < foulProb defn sh → ¬ g.bump.val < makeProb off defn sh false →
      ¬ g.bump.bump.val < ftProb defn sh → ¬ g.bump.bump.bump.val < ftProb defn sh →
      afterShot off defn sh assisted false g =
        reboundPhase off defn sh (Stats.zero.incr sh.name .fga 1)
          g.bump.bump.bump.bump) := by
  refine ⟨?_, ?_, ?_, ?_⟩
  · intro name
    by_cases hm : g.val < makeProb off defn sh true
    · cases assisted <;> simp [afterShot, hm, Stats.incr, Stats.zero]
    · simp [afterShot, hm, reboundPhase_fta, reboundPhase_ftm, Stats.incr, Stats.zero]
  · intro hm name
    cases assisted <;> simp [afterShot, hm, Stats.incr, Stats.zero]
  · intro hf hm hft
    simp [afterShot, hf, hm, hft, Stats.incr, Stats.zero]
  · intro hf hm hf1 hf2
    simp [afterShot, hf, hm, hf1, hf2]


/-- Evaluating the foul probability for the witness matchup. -/
theorem foul_XY : foulProb teamY (mkPlayer "A1" "PG") = 0.03 := by
  norm_num [foulProb, teamY_syn, mkPlayer_ratings, clamp]

/-- Evaluating the two-point make probability for the witness matchup. -/
theorem make2_XY : makeProb teamX teamY (mkPlayer "A1" "PG") false = 0.48 := by
  norm_num [makeProb, teamX_syn, teamY_syn, mkPlayer_ratings, clamp]

/-- Evaluating the free-throw probability for the witness matchup. -/
theorem ft_XY : ftProb teamY (mkPlayer "A1" "PG") = 0.5 := by
  norm_num [ftProb, teamY_syn, mkPlayer_ratings, clamp]

/-- Witness for C5: a concrete draw sequence (foul drawn, shot missed, both
free throws missed) on which the possession provably continues into the
rebound chain. -/
theorem C5_free_throws_witness :
    (⟨fun n => if n = 0 then 0 else 1, 0⟩ : RNG).val
        < foulProb teamY (mkPlayer "A1" "PG") ∧
    ¬ (⟨fun n => if n = 0 then 0 else 1, 0⟩ : RNG).bump.val
        < makeProb teamX teamY (mkPlayer "A1" "PG") false ∧
    ¬ (⟨fun n => if n = 0 then 0 else 1, 0⟩ : RNG).bump.bump.val
        < ftProb teamY (mkPlayer "A1" "PG") ∧
    ¬ (⟨fun n => if n = 0 then 0 else 1, 0⟩ : RNG).bump.bump.bump.val
        < ftProb teamY (mkPlayer "A1" "PG") ∧
    afterShot teamX teamY (mkPlayer "A1" "PG") false false
        (⟨fun n => if n = 0 then 0 else 1, 0⟩ : RNG) =
      reboundPhase teamX teamY (mkPlayer "A1" "PG")
        (Stats.zero.incr (mkPlayer "A1" "PG").name .fga 1)
        (⟨fun n => if n = 0 then 0 else 1, 0⟩ : RNG).bump.bump.bump.bump := by
  have hf : (⟨fun n => if n = 0 then 0 else 1, 0⟩ : RNG).val
      < foulProb teamY (mkPlayer "A1" "PG") := by
    rw [foul_XY]; norm_num [RNG.val]
  have hm : ¬ (⟨fun n => if n = 0 then 0 else 1, 0⟩ : RNG).bump.val
      < makeProb teamX teamY (mkPlayer "A1" "PG") false := by
    rw [make2_XY]; norm_num [RNG.val, RNG.bump]
  have hf1 : ¬ (⟨fun n => if n = 0 then 0 else 1, 0⟩ : RNG).bump.bump.val
      < ftProb teamY (mkPlayer "A1" "PG") := by
    rw [ft_XY]; norm_num [RNG.val, RNG.bump]
  have hf2 : ¬ (⟨fun n => if n = 0 then 0 else 1, 0⟩ : RNG).bump.bump.bump.val
      < ftProb teamY (mkPlayer "A1" "PG") := by
    rw [ft_XY]; norm_num [RNG.val, RNG.bump]
  exact ⟨hf, hm, hf1, hf2,
    (C5_free_throws teamX teamY (mkPlayer "A1" "PG") false
      (⟨fun n => if n = 0 then 0 else 1, 0⟩ : RNG)).2.2.2 hf hm hf1 hf2⟩


/-!  C10: no self-assists. -/

/-- The made-and-assisted branch of `afterShot` in closed form: the shooter's
points / attempt / make, plus one assist for the weighted choice among the
shooter's teammates. -/
theorem afterShot_made_assisted (off defn : Team) (sh : Player) (is_three : Bool)
    (g : RNG) (hmk : (if is_three then g else g.bump).val < makeProb off defn sh is_three) :
    afterShot off defn sh true is_three g =
      (((if is_three then (3 : ℤ) else 2),
        ((((Stats.zero.incr sh.name .pts (if is_three then 3 else 2)).incr
          sh.name .fga 1).incr sh.name .fgm 1).incr
          (pychoice (off.all_players.filter (fun p => p ≠ sh))
            (playWeights (off.all_players.filter (fun p => p ≠ sh)))
            (if is_three then g else g.bump).bump.val default).name .ast 1)),
        (if is_three then g else g.bump).bump.bump) := by
  cases is_three <;> simp only [if_true, if_false, Bool.false_eq_true, ite_true,
    ite_false] at hmk ⊢ <;> simp [afterShot, hmk]

/-- C10: no self-assists.  Whenever a made basket is marked assisted, the
assist is credited to the player selected by playmaking weight from the four
filtered teammates: that player is one of the lineup, is not the shooter, and
is the only one whose assist column moves — the shooter's stays 0. -/
theorem C10_no_self_assist (off defn : Team) (sh : Player) (is_three : Bool)
    (g : RNG) (hnd : (off.all_players.map Player.name).Nodup)
    (hsh : sh ∈ off.all_players)
    (hmk : (if is_three then g else g.bump).val < makeProb off defn sh is_three) :
    ∃ pa, pa ∈ off.all_players ∧ pa ≠ sh ∧
      pa = pychoice (off.all_players.filter (fun p => p ≠ sh))
        (playWeights (off.all_players.filter (fun p => p ≠ sh)))
        (if is_three then g else g.bump).bump.val default ∧
      (afterShot off defn sh true is_three g).1.2 pa.name .ast = 1 ∧
      (afterShot off defn sh true is_three g).1.2 sh.name .ast = 0 := by
  have hq : (off.lineup Pos.PG).name ≠ (off.lineup Pos.SG).name := by
    simp [Team.all_players] at hnd
    exact hnd.1.1
  have hmem : ∃ q, q ∈ off.all_players.filter (fun p => p ≠ sh) := by
    by_cases h1 : off.lineup Pos.PG = sh
    · refine ⟨off.lineup Pos.SG, List.mem_filter.mpr ⟨by simp [Team.all_players], ?_⟩⟩
      simp only [decide_eq_true_eq]
      intro he
      exact hq (by rw [h1, he])
    · exact ⟨off.lineup Pos.PG,
        List.mem_filter.mpr ⟨by simp [Team.all_players], by simpa using h1⟩⟩
  obtain ⟨q, hqm⟩ := hmem
  have hne : off.all_players.filter (fun p => p ≠ sh) ≠ [] :=
    List.ne_nil_of_mem hqm
  have hpa_mates : pychoice (off.all_players.filter (fun p => p ≠ sh))
      (playWeights (off.all_players.filter (fun p => p ≠ sh)))
      (if is_three then g else g.bump).bump.val default
      ∈ off.all_players.filter (fun p => p ≠ sh) :=
    pychoice_mem _ _ _ _ hne
  have hpa_players := List.mem_of_mem_filter hpa_mates
  have hpa_ne : pychoice (off.all_players.filter (fun p => p ≠ sh))
      (playWeights (off.all_players.filter (fun p => p ≠ sh)))
      (if is_three then g else g.bump).bump.val default ≠ sh := by
    simpa using List.of_mem_filter hpa_mates
  have hname : (pychoice (off.all_players.filter (fun p => p ≠ sh))
      (playWeights (off.all_players.filter (fun p => p ≠ sh)))
      (if is_three then g else g.bump).bump.val default).name ≠ sh.name :=
    fun he => hpa_ne (List.inj_on_of_nodup_map hnd hpa_players hsh he)
  refine ⟨_, hpa_players, hpa_ne, rfl, ?_, ?_⟩
  · rw [afterShot_made_assisted off defn sh is_three g hmk]
    simp [Stats.incr, Stats.zero]
  · rw [afterShot_made_assisted off defn sh is_three g hmk]
    simp [Stats.incr, Stats.zero]
    simpa using hname.symm


/-- Witness for C10: in the concrete matchup, with a made assisted two-point
shot by the point guard, the assist goes to a teammate, never the shooter. -/
theorem C10_no_self_assist_witness :
    (teamX.all_players.map Player.name).Nodup ∧
    mkPlayer "A1" "PG" ∈ teamX.all_players ∧
    gZero.bump.val < makeProb teamX teamY (mkPlayer "A1" "PG") false ∧
    (∃ pa, pa ∈ teamX.all_players ∧ pa ≠ mkPlayer "A1" "PG" ∧
      pa = pychoice (teamX.all_players.filter (fun p => p ≠ mkPlayer "A1" "PG"))
        (playWeights (teamX.all_players.filter (fun p => p ≠ mkPlayer "A1" "PG")))
        gZero.bump.bump.val default ∧
      (afterShot teamX teamY (mkPlayer "A1" "PG") true false gZero).1.2 pa.name .ast = 1 ∧
      (afterShot teamX teamY (mkPlayer "A1" "PG") true false gZero).1.2
        (mkPlayer "A1" "PG").name .ast = 0) := by
  have hnd : (teamX.all_players.map Player.name).Nodup := by decide
  have hsh : mkPlayer "A1" "PG" ∈ teamX.all_players := by
    simp [Team.all_players, teamX]
  have hmk : gZero.bump.val < makeProb teamX teamY (mkPlayer "A1" "PG") false := by
    rw [make2_XY]
    norm_num [gZero, RNG.val, RNG.bump]
  exact ⟨hnd, hsh, hmk,
    C10_no_self_assist teamX teamY (mkPlayer "A1" "PG") false gZero hnd hsh hmk⟩


/-!  C9: internal consistency of box-score lines. -/

/-- One player's line in a statistics dictionary is consistent: all values
non-negative, makes never exceed attempts. -/
def RowOK (u : Stats) (name : String) : Prop :=
  (∀ k, 0 ≤ u name k) ∧ u name .fgm ≤ u name .fga ∧ u name .ftm ≤ u name .fta

/-- The empty dictionary has consistent rows. -/
theorem RowOK_zero (name : String) : RowOK Stats.zero name := by
  refine ⟨fun k => ?_, ?_, ?_⟩ <;> simp [Stats.zero]

/-- A bare field-goal attempt has consistent rows. -/
theorem rows_fga (sh : Player) (n : String) :
    RowOK (Stats.zero.incr sh.name .fga 1) n := by
  refine ⟨fun k => ?_, ?_, ?_⟩ <;>
    first
      | (cases k <;> simp [Stats.incr, Stats.zero] <;>
          first | omega | (split_ifs <;> omega))
      | (simp [Stats.incr, Stats.zero] <;> first | omega | (split_ifs <;> omega))

/-- The made-shot chain (points, attempt, make) has consistent rows. -/
theorem rows_made_chain (sh : Player) (pts : ℤ) (hp : 0 ≤ pts) (name : String) :
    RowOK (((Stats.zero.incr sh.name .pts pts).incr sh.name .fga 1).incr
      sh.name .fgm 1) name := by
  refine ⟨fun k => ?_, ?_, ?_⟩ <;>
    first
      | (cases k <;> simp [Stats.incr, Stats.zero] <;>
          first | omega | (split_ifs <;> omega))
      | (simp [Stats.incr, Stats.zero] <;> first | omega | (split_ifs <;> omega))

/-- Crediting one assist preserves row consistency. -/
theorem RowOK_incr_ast (u : Stats) (pa : String) (name : String) (h : RowOK u name) :
    RowOK (u.incr pa .ast 1) name := by
  obtain ⟨h0, h1, h2⟩ := h
  have c1 := h0 Stat.ast
  refine ⟨fun k => ?_, ?_, ?_⟩ <;>
    first
      | (cases k <;> simp [Stats.incr] <;>
          first | omega | (split_ifs <;> omega) | (exact h0 _))
      | (simp [Stats.incr] <;> first | omega | (split_ifs <;> omega))

/-- The free-throw trip chain (attempt, `fta = 2`, `ftm = m ≤ 2`) has
consistent rows. -/
theorem rows_ft_chain (sh : Player) (name : String) (m : ℤ) (h0 : 0 ≤ m)
    (h2 : m ≤ 2) :
    RowOK ((((Stats.zero.incr sh.name .fga 1).incr sh.name .pts m).incr
      sh.name .fta 2).incr sh.name .ftm m) name := by
  refine ⟨fun k => ?_, ?_, ?_⟩ <;>
    first
      | (cases k <;> simp [Stats.incr, Stats.zero] <;>
          first | omega | (split_ifs <;> omega))
      | (simp [Stats.incr, Stats.zero] <;> first | omega | (split_ifs <;> omega))

/-- The rebound chain preserves row consistency. -/
theorem reboundPhase_rows (off defn : Team) (sh : Player) (stats : Stats)
    (g : RNG) (h : ∀ n, RowOK stats n) (name : String) :
    RowOK (reboundPhase off defn sh stats g).1.2 name := by
  obtain ⟨h0, h1, h2⟩ := h name
  have c1 := h0 Stat.pts
  have c2 := h0 Stat.fga
  have c3 := h0 Stat.fgm
  have c4 := h0 Stat.fta
  have c5 := h0 Stat.ftm
  have c6 := h0 Stat.ast
  have c7 := h0 Stat.orb
  have c8 := h0 Stat.drb
  unfold reboundPhase
  split_ifs <;>
    refine ⟨fun k => ?_, ?_, ?_⟩ <;>
    first
      | (cases k <;> simp [Stats.incr] <;> first | omega | (split_ifs <;> omega))
      | (simp [Stats.incr] <;> first | omega | (split_ifs <;> omega))

/-- Every possession tail produces consistent rows. -/
theorem afterShot_rows (off defn : Team) (sh : Player) (assisted is_three : Bool)
    (g : RNG) (name : String) :
    RowOK (afterShot off defn sh assisted is_three g).1.2 name := by
  cases is_three
  case true =>
    by_cases hm : g.val < makeProb off defn sh true
    · cases assisted
      · simpa [afterShot, hm] using rows_made_chain sh 3 (by norm_num) name
      · simpa [afterShot, hm] using
          RowOK_incr_ast _ _ name (rows_made_chain sh 3 (by norm_num) name)
    · simpa [afterShot, hm] using
        reboundPhase_rows off defn sh _ _ (rows_fga sh) name
  case false =>
    by_cases hm : g.bump.val < makeProb off defn sh false
    · cases assisted
      · simpa [afterShot, hm] using rows_made_chain sh 2 (by norm_num) name
      · simpa [afterShot, hm] using
          RowOK_incr_ast _ _ name (rows_made_chain sh 2 (by norm_num) name)
    · by_cases hf : g.val < foulProb defn sh
      · by_cases hft1 : g.bump.bump.val < ftProb defn sh <;>
          by_cases hft2 : g.bump.bump.bump.val < ftProb defn sh
        · simpa [afterShot, hm, hf, hft1, hft2] using
            rows_ft_chain sh name _ (by norm_num) (by norm_num)
        · simpa [afterShot, hm, hf, hft1, hft2] using
            rows_ft_chain sh name _ (by norm_num) (by norm_num)
        · simpa [afterShot, hm, hf, hft1, hft2] using
            rows_ft_chain sh name _ (by norm_num) (by norm_num)
        · simpa [afterShot, hm, hf, hft1, hft2] using
            reboundPhase_rows off defn sh _ _ (rows_fga sh) name
      · simpa [afterShot, hm, hf] using
          reboundPhase_rows off defn sh _ _ (rows_fga sh) name

/-- Every possession produces consistent rows. -/
theorem possession_rows (off defn : Team) (g : RNG) (name : String) :
    RowOK (possession off defn g).1.2 name := by
  unfold possession
  split_ifs with h
  · simpa using RowOK_zero name
  · exact afterShot_rows off defn _ _ _ _ name

/-- Merging two dictionaries with consistent rows stays consistent. -/
theorem RowOK_merge (bx u : Stats) (name : String) (hb : RowOK bx name)
    (hu : RowOK u name) : RowOK (mergeStats bx u) name := by
  obtain ⟨b0, b1, b2⟩ := hb
  obtain ⟨u0, u1, u2⟩ := hu
  refine ⟨fun k => ?_, ?_, ?_⟩ <;> simp only [mergeStats]
  · have := b0 k
    have := u0 k
    omega
  · omega
  · omega

/-- The game loop keeps every box-score row consistent. -/
theorem foldl_rows (a b : Team) (l : List ℕ) (st : GameSt)
    (h : ∀ name, RowOK st.box name) (name : String) :
    RowOK ((l.foldl (gameStep a b) st).box) name := by
  induction l generalizing st with
  | nil => exact h name
  | cons i l ih =>
    simp only [List.foldl_cons]
    apply ih
    intro n
    unfold gameStep
    split_ifs <;> exact RowOK_merge _ _ n (h n) (possession_rows _ _ _ n)


/-- In any possession tail, a nonzero free-throw-attempts entry comes with at
least one made free throw (the code records the trip only when `ft_makes`
is truthy). -/
theorem afterShot_fta_ftm (off defn : Team) (sh : Player) (assisted is_three : Bool)
    (g : RNG) (name : String) :
    (afterShot off defn sh assisted is_three g).1.2 name .fta ≠ 0 →
    1 ≤ (afterShot off defn sh assisted is_three g).1.2 name .ftm := by
  cases is_three
  case true =>
    by_cases hm : g.val < makeProb off defn sh true
    · cases assisted <;> simp [afterShot, hm, Stats.incr, Stats.zero]
    · simp [afterShot, hm, reboundPhase_fta, reboundPhase_ftm, Stats.incr, Stats.zero]
  case false =>
    by_cases hm : g.bump.val < makeProb off defn sh false
    · cases assisted <;> simp [afterShot, hm, Stats.incr, Stats.zero]
    · by_cases hf : g.val < foulProb defn sh
      · by_cases hft1 : g.bump.bump.val < ftProb defn sh <;>
          by_cases hft2 : g.bump.bump.bump.val < ftProb defn sh <;>
          simp [afterShot, hm, hf, hft1, hft2, reboundPhase_fta, reboundPhase_ftm,
            Stats.incr, Stats.zero] <;>
          (try split_ifs) <;> simp_all
      · simp [afterShot, hm, hf, reboundPhase_fta, reboundPhase_ftm,
          Stats.incr, Stats.zero]

/-- Possession-level version of `afterShot_fta_ftm`. -/
theorem possession_fta_ftm (off defn : Team) (g : RNG) (name : String) :
    (possession off defn g).1.2 name .fta ≠ 0 →
    1 ≤ (possession off defn g).1.2 name .ftm := by
  unfold possession
  split_ifs with h
  · simp [Stats.zero]
  · exact afterShot_fta_ftm off defn _ _ _ _ name

/-- C9: box-score lines are internally consistent.  In every `simulate_game`
result each player's line has all statistics non-negative with
`fgm ≤ fga` and `ftm ≤ fta`; a possession records free-throw attempts only
when at least one of the two free throws drops; and a 0-for-2 trip leaves
both `fta` and `ftm` untouched (the possession falls through to the rebound
chain without recording the trip). -/
theorem C9_box_consistency (seedFn : ℤ → RNG) (a b : Team) (seed : Option ℤ)
    (g0 : RNG) (off defn : Team) (sh : Player) (assisted : Bool) (g : RNG) :
    (∀ name, (∀ k, 0 ≤ (simulate_game seedFn a b seed g0).1.box name k) ∧
      (simulate_game seedFn a b seed g0).1.box name .fgm
        ≤ (simulate_game seedFn a b seed g0).1.box name .fga ∧
      (simulate_game seedFn a b seed g0).1.box name .ftm
        ≤ (simulate_game seedFn a b seed g0).1.box name .fta) ∧
    (∀ name, (possession off defn g).1.2 name .fta ≠ 0 →
      1 ≤ (possession off defn g).1.2 name .ftm) ∧
    (g.val < foulProb defn sh → ¬ g.bump.val < makeProb off defn sh false →
      ¬ g.bump.bump.val < ftProb defn sh →
      ¬ g.bump.bump.bump.val < ftProb defn sh →
      ∀ name, (afterShot off defn sh assisted false g).1.2 name .fta = 0 ∧
        (afterShot off defn sh assisted false g).1.2 name .ftm = 0) := by
  refine ⟨?_, ?_, ?_⟩
  · intro name
    have hrun : ∀ gI : RNG,
        RowOK (((List.range (2 * nPoss a b).toNat).foldl (gameStep a b)
          ⟨0, 0, Stats.zero, gI⟩).box) name := by
      intro gI
      exact foldl_rows a b _ _ (fun n => RowOK_zero n) name
    cases seed <;> exact hrun _
  · exact possession_fta_ftm off defn g
  · intro hf hm h1 h2 name
    simp [afterShot, hf, hm, h1, h2, reboundPhase_fta, reboundPhase_ftm,
      Stats.incr, Stats.zero]

/-- A draw stream that drives one possession of the witness matchup into the
free-throw branch with exactly one make: no turnover, shooter A1, no assist,
a two-point attempt, a drawn foul, a missed shot, a made first free throw and
a missed second. -/
def gw : RNG := ⟨fun n => if n = 1 ∨ n = 4 ∨ n = 6 then 0 else 1/2, 0⟩

set_option maxRecDepth 10000 in
/-- Witness for C9: a concrete possession that records `fta = 2` with one
make, and a concrete 0-for-2 trip leaving the free-throw columns at zero. -/
theorem C9_box_consistency_witness :
    ((possession teamX teamY gw).1.2 "A1" Stat.fta ≠ 0 ∧
      1 ≤ (possession teamX teamY gw).1.2 "A1" Stat.ftm) ∧
    ((⟨fun n => if n = 0 then 0 else 1, 0⟩ : RNG).val
        < foulProb teamY (mkPlayer "A1" "PG") ∧
      ¬ (⟨fun n => if n = 0 then 0 else 1, 0⟩ : RNG).bump.val
        < makeProb teamX teamY (mkPlayer "A1" "PG") false ∧
      ¬ (⟨fun n => if n = 0 then 0 else 1, 0⟩ : RNG).bump.bump.val
        < ftProb teamY (mkPlayer "A1" "PG") ∧
      ¬ (⟨fun n => if n = 0 then 0 else 1, 0⟩ : RNG).bump.bump.bump.val
        < ftProb teamY (mkPlayer "A1" "PG") ∧
      (afterShot teamX teamY (mkPlayer "A1" "PG") false false
        (⟨fun n => if n = 0 then 0 else 1, 0⟩ : RNG)).1.2 "A1" Stat.fta = 0 ∧
      (afterShot teamX teamY (mkPlayer "A1" "PG") false false
        (⟨fun n => if n = 0 then 0 else 1, 0⟩ : RNG)).1.2 "A1" Stat.ftm = 0) := by
  have hfta : (possession teamX teamY gw).1.2 "A1" Stat.fta = 2 :=
    of_decide_eq_true (by with_unfolding_all rfl)
  have hne : (possession teamX teamY gw).1.2 "A1" Stat.fta ≠ 0 := by
    rw [hfta]
    norm_num
  have hf : (⟨fun n => if n = 0 then 0 else 1, 0⟩ : RNG).val
      < foulProb teamY (mkPlayer "A1" "PG") := by
    rw [foul_XY]
    norm_num [RNG.val]
  have hm : ¬ (⟨fun n => if n = 0 then 0 else 1, 0⟩ : RNG).bump.val
      < makeProb teamX teamY (mkPlayer "A1" "PG") false := by
    rw [make2_XY]
    norm_num [RNG.val, RNG.bump]
  have h1 : ¬ (⟨fun n => if n = 0 then 0 else 1, 0⟩ : RNG).bump.bump.val
      < ftProb teamY (mkPlayer "A1" "PG") := by
    rw [ft_XY]
    norm_num [RNG.val, RNG.bump]
  have h2 : ¬ (⟨fun n => if n = 0 then 0 else 1, 0⟩ : RNG).bump.bump.bump.val
      < ftProb teamY (mkPlayer "A1" "PG") := by
    rw [ft_XY]
    norm_num [RNG.val, RNG.bump]
  have hc := C9_box_consistency (fun _ => gZero) teamX teamY none gZero teamX teamY
    (mkPlayer "A1" "PG") false (⟨fun n => if n = 0 then 0 else 1, 0⟩ : RNG)
  have hc2 := (C9_box_consistency (fun _ => gZero) teamX teamY none gZero teamX teamY
    (mkPlayer "A1" "PG") false gw).2.1 "A1" hne
  exact ⟨⟨hne, hc2⟩, hf, hm, h1, h2, (hc.2.2 hf hm h1 h2 "A1").1,
    (hc.2.2 hf hm h1 h2 "A1").2⟩


/-!  C2: the box score accumulates exactly the points scored. -/

/-- The rebound chain adds its returned points to the shooter's points row
and nobody else's. -/
theorem reboundPhase_pts (off defn : Team) (sh : Player) (stats : Stats)
    (g : RNG) (name : String) :
    (reboundPhase off defn sh stats g).1.2 name Stat.pts
      = stats name Stat.pts
        + (if name = sh.name then (reboundPhase off defn sh stats g).1.1 else 0) := by
  unfold reboundPhase
  split_ifs <;> simp [Stats.incr] <;> (try split_ifs) <;>
    first | rfl | assumption | omega | simp_all

/-- A possession tail credits all of its returned points to the shooter's
points row and leaves every other points row at zero. -/
theorem afterShot_pts (off defn : Team) (sh : Player) (assisted is_three : Bool)
    (g : RNG) (name : String) :
    (afterShot off defn sh assisted is_three g).1.2 name Stat.pts
      = (if name = sh.name then (afterShot off defn sh assisted is_three g).1.1
          else 0) := by
  cases is_three
  case true =>
    by_cases hm : g.val < makeProb off defn sh true
    · cases assisted <;> simp [afterShot, hm, Stats.incr, Stats.zero] <;>
        split_ifs <;> simp_all
    · simp [afterShot, hm]
      rw [reboundPhase_pts]
      simp [Stats.incr, Stats.zero]
  case false =>
    by_cases hm : g.bump.val < makeProb off defn sh false
    · cases assisted <;> simp [afterShot, hm, Stats.incr, Stats.zero] <;>
        split_ifs <;> simp_all
    · by_cases hf : g.val < foulProb defn sh
      · by_cases hft1 : g.bump.bump.val < ftProb defn sh <;>
          by_cases hft2 : g.bump.bump.bump.val < ftProb defn sh <;>
          simp [afterShot, hm, hf, hft1, hft2, Stats.incr, Stats.zero] <;>
          (try rw [reboundPhase_pts]) <;>
          simp [Stats.incr, Stats.zero] <;>
          (try split_ifs) <;> simp_all
      · simp [afterShot, hm, hf]
        rw [reboundPhase_pts]
        simp [Stats.incr, Stats.zero]

/-- Every possession concentrates its points on one member of the offensive
lineup: there is a shooter in the lineup such that the update's points column
is the returned point total at the shooter's name and zero elsewhere. -/
theorem possession_pts (off defn : Team) (g : RNG) :
    ∃ sh, sh ∈ off.all_players ∧ ∀ name,
      (possession off defn g).1.2 name Stat.pts
        = (if name = sh.name then (possession off defn g).1.1 else 0) := by
  unfold possession
  split_ifs with h
  · exact ⟨off.lineup Pos.PG, by simp [Team.all_players],
      fun name => by simp [Stats.zero]⟩
  · exact ⟨pychoice off.all_players (usageWeights off.all_players) g.bump.val default,
      pychoice_mem _ _ _ _ (all_players_ne_nil off),
      fun name => afterShot_pts off defn _ _ _ _ name⟩


/-- Summing an indicator over a list with distinct names containing the
distinguished player gives the value once. -/
theorem sum_single (v : ℤ) (sh : Player) :
    ∀ ps : List Player, (ps.map Player.name).Nodup → sh ∈ ps →
      (ps.map (fun p => if p.name = sh.name then v else 0)).sum = v := by
  intro ps
  induction ps with
  | nil => intro _ h; cases h
  | cons q rest ih =>
    intro hnd hm
    rw [List.map_cons] at hnd
    have hnd' := List.nodup_cons.mp hnd
    simp only [List.map_cons, List.sum_cons]
    rcases List.mem_cons.mp hm with rfl | hm'
    · rw [if_pos rfl]
      have hz : (rest.map (fun p => if p.name = sh.name then v else 0)).sum = 0 := by
        apply List.sum_eq_zero
        intro x hx
        obtain ⟨p, hp, rfl⟩ := List.mem_map.mp hx
        have hne : p.name ≠ sh.name := by
          intro he
          exact hnd'.1 (he ▸ List.mem_map.mpr ⟨p, hp, rfl⟩)
        simp [hne]
      rw [hz]
      ring
    · have hq : q.name ≠ sh.name := by
        intro he
        exact hnd'.1 (he ▸ List.mem_map.mpr ⟨sh, hm', rfl⟩)
      rw [if_neg hq, ih hnd'.2 hm']
      ring

/-- Summing the indicator over a list with no matching name gives zero. -/
theorem sum_zero (v : ℤ) (sh : Player) (ps : List Player)
    (h : ∀ p ∈ ps, p.name ≠ sh.name) :
    (ps.map (fun p => if p.name = sh.name then v else 0)).sum = 0 := by
  apply List.sum_eq_zero
  intro x hx
  obtain ⟨p, hp, rfl⟩ := List.mem_map.mp hx
  simp [h p hp]

/-- With ten pairwise-distinct names, the two lineups share no name. -/
theorem names_disjoint {a b : Team}
    (hnd : ((a.all_players ++ b.all_players).map Player.name).Nodup) :
    ∀ p ∈ a.all_players, ∀ q ∈ b.all_players, p.name ≠ q.name := by
  intro p hp q hq he
  rw [List.map_append] at hnd
  obtain ⟨-, -, hdisj⟩ := List.nodup_append.mp hnd
  exact hdisj (List.mem_map.mpr ⟨p, hp, rfl⟩) (he ▸ List.mem_map.mpr ⟨q, hq, rfl⟩)

/-- Point totals: summing the update's points over the offensive lineup (with
distinct names) yields exactly the possession's returned points. -/
theorem possession_sum_self (off defn : Team)
    (hnd : (off.all_players.map Player.name).Nodup) (g : RNG) :
    (off.all_players.map
      (fun p => (possession off defn g).1.2 p.name Stat.pts)).sum
      = (possession off defn g).1.1 := by
  obtain ⟨sh, hsh, hpts⟩ := possession_pts off defn g
  rw [List.map_congr_left (fun p _ => hpts p.name)]
  exact sum_single _ sh _ hnd hsh

/-- Point totals: players whose names do not occur in the offensive lineup
receive no points from the possession. -/
theorem possession_sum_other (off defn : Team) (others : List Player)
    (hdisj : ∀ p ∈ others, ∀ q ∈ off.all_players, p.name ≠ q.name) (g : RNG) :
    (others.map (fun p => (possession off defn g).1.2 p.name Stat.pts)).sum
      = 0 := by
  obtain ⟨sh, hsh, hpts⟩ := possession_pts off defn g
  rw [List.map_congr_left (fun p _ => hpts p.name)]
  exact sum_zero _ sh _ (fun p hp => hdisj p hp sh hsh)

/-- Splitting a sum of pointwise additions. -/
theorem sum_map_add (l : List Player) (f h : Player → ℤ) :
    (l.map (fun p => f p + h p)).sum = (l.map f).sum + (l.map h).sum := by
  induction l with
  | nil => simp
  | cons x xs ih =>
    simp only [List.map_cons, List.sum_cons, ih]
    ring

/-- The game loop keeps each score equal to the sum of that team's points
column in the box score. -/
theorem fold_score (a b : Team)
    (hnd : ((a.all_players ++ b.all_players).map Player.name).Nodup) :
    ∀ (l : List ℕ) (st : GameSt),
      st.score_a = (a.all_players.map (fun p => st.box p.name Stat.pts)).sum →
      st.score_b = (b.all_players.map (fun p => st.box p.name Stat.pts)).sum →
      (l.foldl (gameStep a b) st).score_a
          = (a.all_players.map
              (fun p => (l.foldl (gameStep a b) st).box p.name Stat.pts)).sum ∧
        (l.foldl (gameStep a b) st).score_b
          = (b.all_players.map
              (fun p => (l.foldl (gameStep a b) st).box p.name Stat.pts)).sum := by
  have hna : (a.all_players.map Player.name).Nodup := by
    rw [List.map_append] at hnd
    exact (List.nodup_append.mp hnd).1
  have hnb : (b.all_players.map Player.name).Nodup := by
    rw [List.map_append] at hnd
    exact (List.nodup_append.mp hnd).2.1
  have hd := names_disjoint hnd
  intro l
  induction l with
  | nil => exact fun st h1 h2 => ⟨h1, h2⟩
  | cons i rest ih =>
    intro st h1 h2
    simp only [List.foldl_cons]
    apply ih
    · unfold gameStep
      split_ifs
      · show st.score_a + (possession a b st.g).1.1
          = (a.all_players.map (fun p =>
              mergeStats st.box (possession a b st.g).1.2 p.name Stat.pts)).sum
        simp only [mergeStats]
        rw [sum_map_add, ← h1, possession_sum_self a b hna]
      · show st.score_a
          = (a.all_players.map (fun p =>
              mergeStats st.box (possession b a st.g).1.2 p.name Stat.pts)).sum
        simp only [mergeStats]
        rw [sum_map_add, ← h1,
          possession_sum_other b a a.all_players (fun p hp q hq => hd p hp q hq)]
        ring
    · unfold gameStep
      split_ifs
      · show st.score_b
          = (b.all_players.map (fun p =>
              mergeStats st.box (possession a b st.g).1.2 p.name Stat.pts)).sum
        simp only [mergeStats]
        rw [sum_map_add, ← h2,
          possession_sum_other a b b.all_players
            (fun p hp q hq => (hd q hq p hp).symm)]
        ring
      · show st.score_b + (possession b a st.g).1.1
          = (b.all_players.map (fun p =>
              mergeStats st.box (possession b a st.g).1.2 p.name Stat.pts)).sum
        simp only [mergeStats]
        rw [sum_map_add, ← h2, possession_sum_self b a hnb]

/-- C2: the box score accumulates exactly the points scored.  With the ten
lineup names pairwise distinct, each possession's returned point total equals
the sum of the `"pts"` updates it records over the offensive lineup (and no
name outside that lineup receives points); consequently each team's entry in
the final score equals the sum of the `"pts"` column of the returned box over
that team's five players. -/
theorem C2_score_equals_box (a b : Team)
    (hnd : ((a.all_players ++ b.all_players).map Player.name).Nodup) :
    (∀ g : RNG,
      (a.all_players.map
        (fun p => (possession a b g).1.2 p.name Stat.pts)).sum
        = (possession a b g).1.1 ∧
      (b.all_players.map
        (fun p => (possession b a g).1.2 p.name Stat.pts)).sum
        = (possession b a g).1.1 ∧
      (∀ name, (possession a b g).1.2 name Stat.pts ≠ 0 →
        ∃ p ∈ a.all_players, name = p.name)) ∧
    (∀ (seedFn : ℤ → RNG) (seed : Option ℤ) (g0 : RNG),
      (simulate_game seedFn a b seed g0).1.score.1
        = (a.all_players.map
            (fun p => (simulate_game seedFn a b seed g0).1.box p.name Stat.pts)).sum ∧
      (simulate_game seedFn a b seed g0).1.score.2
        = (b.all_players.map
            (fun p => (simulate_game seedFn a b seed g0).1.box p.name Stat.pts)).sum) := by
  have hna : (a.all_players.map Player.name).Nodup := by
    rw [List.map_append] at hnd
    exact (List.nodup_append.mp hnd).1
  have hnb : (b.all_players.map Player.name).Nodup := by
    rw [List.map_append] at hnd
    exact (List.nodup_append.mp hnd).2.1
  refine ⟨?_, ?_⟩
  · intro g
    refine ⟨possession_sum_self a b hna g, possession_sum_self b a hnb g, ?_⟩
    intro name hne
    obtain ⟨sh, hsh, hpts⟩ := possession_pts a b g
    by_cases h : name = sh.name
    · exact ⟨sh, hsh, h⟩
    · rw [hpts name, if_neg h] at hne
      exact absurd rfl hne
  · intro seedFn seed g0
    have hrun : ∀ gI : RNG,
        (((List.range (2 * nPoss a b).toNat).foldl (gameStep a b)
            ⟨0, 0, Stats.zero, gI⟩).score_a
          = (a.all_players.map (fun p =>
              ((List.range (2 * nPoss a b).toNat).foldl (gameStep a b)
                ⟨0, 0, Stats.zero, gI⟩).box p.name Stat.pts)).sum ∧
        ((List.range (2 * nPoss a b).toNat).foldl (gameStep a b)
            ⟨0, 0, Stats.zero, gI⟩).score_b
          = (b.all_players.map (fun p =>
              ((List.range (2 * nPoss a b).toNat).foldl (gameStep a b)
                ⟨0, 0, Stats.zero, gI⟩).box p.name Stat.pts)).sum) := by
      intro gI
      exact fold_score a b hnd _ _ (by simp [Stats.zero]) (by simp [Stats.zero])
    cases seed <;> exact ⟨(hrun _).1, (hrun _).2⟩

/-- Witness for C2: the concrete ten-name-distinct matchup, where the first
possession's returned points equal the summed points updates. -/
theorem C2_score_equals_box_witness :
    ((teamX.all_players ++ teamY.all_players).map Player.name).Nodup ∧
    (teamX.all_players.map
      (fun p => (possession teamX teamY gZero).1.2 p.name Stat.pts)).sum
      = (possession teamX teamY gZero).1.1 := by
  have hnd : ((teamX.all_players ++ teamY.all_players).map Player.name).Nodup := by
    decide
  exact ⟨hnd, ((C2_score_equals_box teamX teamY hnd).1 gZero).1⟩

end NbaSim
